import Mathlib

/-!
Verification development for the jlr2mqtt bridge (src/jlr2mqtt.py).

The Python source is shallowly embedded: Python values that flow through the
dispatcher are modelled by the inductive type `PyVal`; Python string methods
are modelled by executable functions on `String.data` (so that the kernel can
evaluate them); the remote API client (jlrpy), the clock, the configuration
and the logging backend are oracles collected in an `Env` record; mutable
globals (`jlr_connection`, `last_command_service_id`, `status_refresh_timer`)
form the state record `St`; observable side effects (mqtt publications of
command responses, remote API invocations, timer arming and cancelling) are
collected in an event trace `List Ev`.  Exceptions are modelled with
`Except Unit`: a raise that the source catches is turned into the handler's
result, a raise that escapes to the top-level handler of `do_command` aborts
the call with the state mutated so far.  Throughout, `kwargs` is modelled as
a JSON object (an association list with string keys), so the source's
`type(kwargs) is dict` test is always true; line-number suffixes that the
source interpolates into error messages are not modelled.
-/

namespace Jlr2mqtt

/-- Lower-casing of a Python string (`str.lower`), done on the character data
so that the kernel can evaluate it. -/
def lowerStr (s : String) : String := String.mk (s.data.map Char.toLower)

/-- Replacement of spaces by underscores (`str.replace(" ", "_")` for the
single-character pattern used by the source). -/
def underscoreSpaces (s : String) : String :=
  String.mk (s.data.map (fun c => if c == ' ' then '_' else c))

/-- Occurrence of `needle` as a contiguous subsequence of `hay`
(Python `needle in hay` for strings). -/
def subOccurs (needle : List Char) : List Char → Bool
  | [] => needle.isEmpty
  | c :: t => needle.isPrefixOf (c :: t) || subOccurs needle t

/-- Python substring containment test `needle in hay`. -/
def strContains (hay needle : String) : Bool := subOccurs needle.data hay.data

/-- Lexicographic comparison of character lists by code point, the order
Python `sorted` uses on strings. -/
def lexLe : List Char → List Char → Bool
  | [], _ => true
  | _ :: _, [] => false
  | a :: as, b :: bs =>
    if a.toNat < b.toNat then true
    else if b.toNat < a.toNat then false
    else lexLe as bs

/-- Python string comparison `a <= b`. -/
def pyStrLe (a b : String) : Bool := lexLe a.data b.data

/-- Python `sorted` on a list of strings. -/
def sortStr (l : List String) : List String :=
  l.insertionSort (fun a b => pyStrLe a b = true)

/-- The substring of `s` before its first underscore; the whole of `s` when
`s` has no underscore.  This is Python `s.split("_")[0]`, used at line 375 of
the source. -/
def split_head (s : String) : String :=
  String.mk (s.data.takeWhile (fun c => c != '_'))

/-- Shallow embedding of the Python values the dispatcher handles: `None`,
numbers, strings, JSON arrays and JSON objects (dicts with string keys). -/
inductive PyVal where
  | none
  | int (n : Int)
  | str (s : String)
  | list (xs : List PyVal)
  | dict (fs : List (String × PyVal))

/-- Python truthiness of a value. -/
def truthy : PyVal → Bool
  | PyVal.none => false
  | PyVal.int n => n != 0
  | PyVal.str s => s != ""
  | PyVal.list xs => !xs.isEmpty
  | PyVal.dict fs => !fs.isEmpty

/-- Python membership test `needle in v` for a string needle: substring test
on strings, element test on lists, key test on dicts; a `TypeError` (modelled
by `Except.error`) on `None` and numbers. -/
def py_in (needle : String) : PyVal → Except Unit Bool
  | PyVal.str s => Except.ok (strContains s needle)
  | PyVal.list xs =>
    Except.ok (xs.any (fun v => match v with
      | PyVal.str s => s == needle
      | _ => false))
  | PyVal.dict fs => Except.ok (fs.any (fun kv => kv.1 == needle))
  | PyVal.none => Except.error ()
  | PyVal.int _ => Except.error ()

/-- Python subscription `v[k]` for a string key: defined on dicts, a
`TypeError`/`KeyError` (modelled by `Except.error`) otherwise. -/
def py_get (v : PyVal) (k : String) : Except Unit PyVal :=
  match v with
  | PyVal.dict fs =>
    match fs.lookup k with
    | some x => Except.ok x
    | Option.none => Except.error ()
  | _ => Except.error ()

/-- Truthiness of the optional configured master PIN (`MASTER_PIN`, which is
`None` when absent from the configuration). -/
def pinTruthy : Option String → Bool
  | Option.none => false
  | some p => p != ""

/-- Truthiness of an optional string (used for the `category` and
`value_item` arguments of the discovery namer, which may be `None`). -/
def optStrTruthy : Option String → Bool
  | Option.none => false
  | some c => c != ""

/-- The category derived from a status key by `get_category_from_key`
(source lines 197-203): the part of the key before the first underscore when
the key contains an underscore (`len(key.split("_")) > 1`), else `None`. -/
def get_category_from_key (key : String) : Option String :=
  if key.data.contains '_' then some (split_head key) else Option.none

/-- The `unique_id` computed by `get_ha_disc_topic_and_config` (source lines
252-313), as a function of sensor type, category, key and value item.  A
`None` value item where the source would call `.lower()` on it raises
(`Except.error`), which the source's `except` turns into a skipped
descriptor. -/
def ha_unique_id (sensor_type : String) (category : Option String)
    (key : String) (value_item : Option String) : Except Unit String :=
  if optStrTruthy category then
    let uid := "jlr_" ++ lowerStr sensor_type ++ "_" ++ lowerStr key
    if sensor_type ≠ "status" then
      match value_item with
      | some vi => Except.ok (uid ++ "_" ++ lowerStr vi)
      | Option.none => Except.error ()
    else Except.ok uid
  else
    match value_item with
    | some vi =>
      if vi ≠ "" then
        Except.ok ("jlr_" ++ underscoreSpaces (lowerStr key) ++ "_" ++ lowerStr vi)
      else Except.ok ("jlr_" ++ underscoreSpaces (lowerStr key))
    | Option.none => Except.ok ("jlr_" ++ underscoreSpaces (lowerStr key))

/-- One element of a status dictionary: a JSON object, kept as an ordered
association list exactly as the source iterates it. -/
abbrev Element := List (String × PyVal)

/-- The publications emitted for one element by `publish_status_dict` (source
lines 372-387).  The element's key field must be present and be a string
(otherwise line 375 raises, modelled by `Except.error`).  The category put in
the topic is `element[key].split("_")[0]`. -/
def flatten_element (topic_root subtopic keyfield : String) (element : Element) :
    Except Unit (List (String × PyVal)) :=
  match element.lookup keyfield with
  | Option.none => Except.error ()
  | some v =>
    match v with
    | PyVal.str s =>
      let category := split_head s
      let topic_base := topic_root ++ "/" ++ subtopic ++ "/" ++ category ++ "/" ++ lowerStr s
      if element.length == 2 && element.any (fun kv => kv.1 == keyfield)
          && element.any (fun kv => kv.1 == "value") then
        match element.lookup "value" with
        | some w => Except.ok [(topic_base, w)]
        | Option.none => Except.error ()
      else
        Except.ok ((element.filter (fun kv => kv.1 ≠ keyfield)).map
          (fun kv => (topic_base ++ "/" ++ kv.1, kv.2)))
    | _ => Except.error ()

/-- The full run of `publish_status_dict` over a status dictionary, returning
the ordered list of (topic, payload) publications; the timestamp `ts` stands
for `get_timestamp_string()`. -/
def publish_status_dict (topic_root subtopic : String) (status_dict : List Element)
    (keyfield : String) (ts : String) : Except Unit (List (String × PyVal)) :=
  match status_dict with
  | [] => Except.ok [(topic_root ++ "/last_update_ts", PyVal.str ts)]
  | e :: rest =>
    match flatten_element topic_root subtopic keyfield e with
    | Except.error u => Except.error u
    | Except.ok pubs =>
      match publish_status_dict topic_root subtopic rest keyfield ts with
      | Except.error u => Except.error u
      | Except.ok more => Except.ok (pubs ++ more)

/-- Follows the spec's words for claim C8: the topic base uses the substring
of the key before its first underscore as category, and no category segment
at all when the key contains no underscore. -/
def spec_flatten_topic_base (topic_root subtopic key : String) : String :=
  match get_category_from_key key with
  | some c => topic_root ++ "/" ++ subtopic ++ "/" ++ c ++ "/" ++ lowerStr key
  | Option.none => topic_root ++ "/" ++ subtopic ++ "/" ++ lowerStr key

/-- The cached session to the remote API (`jlrpy.Connection` plus the
`vehicle_count` attribute the source attaches to it). -/
structure Session where
  expiration : Int
  vehicle_count : Nat
deriving DecidableEq

/-- Outcome of a call to `get_jlr_connection`: a returned value (possibly
`None`) or an escaped exception from the `jlrpy.Connection` constructor. -/
inductive ConnOutcome where
  | ok (s : Option Session)
  | raised
deriving DecidableEq

/-- Shallow embedding of `get_jlr_connection` (source lines 316-340).  The
state is the global `jlr_connection`; `now` is the current timestamp;
`construct` is the oracle for `jlrpy.Connection(JLR_USER, JLR_PW,
JLR_DEVICE_ID)` (`none` means the constructor raises).  Returns the new
cached state and the call's outcome. -/
def get_jlr_connection (cached : Option Session) (now : Int)
    (construct : Option Session) : Option Session × ConnOutcome :=
  match cached with
  | some s =>
    if s.expiration < now then (Option.none, ConnOutcome.ok Option.none)
    else (some s, ConnOutcome.ok (some s))
  | Option.none =>
    match construct with
    | some s => (some s, ConnOutcome.ok (some s))
    | Option.none => (Option.none, ConnOutcome.raised)

/-- Ledger of the one-shot refresh timers ever created by `do_command`:
`created` counts the `Timer(...)` constructions (timer ids are `0, 1, ...`),
`dead` lists the ids that were cancelled or have fired, and `tracked` is the
id held by the global `status_refresh_timer`. -/
structure Ledger where
  created : Nat
  dead : List Nat
  tracked : Option Nat
deriving DecidableEq

/-- A timer is pending (Python `is_alive`) when it was started and has
neither been cancelled nor fired. -/
def aliveT (L : Ledger) (i : Nat) : Bool :=
  decide (i < L.created) && !(L.dead.contains i)

/-- Number of pending refresh timers. -/
def pendingCount (L : Ledger) : Nat :=
  ((List.range L.created).filter (fun i => aliveT L i)).length

/-- Invariant maintained by the dispatcher: every pending timer is the one
held by `status_refresh_timer`, and dead ids were actually created. -/
def TimerInv (L : Ledger) : Prop :=
  (∀ i, aliveT L i = true → L.tracked = some i) ∧ (∀ i ∈ L.dead, i < L.created)

/-- Observable events of a dispatcher run, in order: a call to
`publish_command_response`, a dynamic remote API invocation, the `completed`
log of source line 609, and the cancel/arm of the refresh timer. -/
inductive Ev where
  | pubResponse (v : PyVal)
  | remoteCall (command : String) (kwargs : List (String × PyVal))
  | logCompleted
  | cancelTimer
  | armTimer

/-- Source lines 611-617: cancel the tracked timer when it is alive, then
construct, track and start a fresh timer. -/
def armStep (L : Ledger) : Ledger × List Ev :=
  let p : Ledger × List Ev :=
    match L.tracked with
    | some t =>
      if aliveT L t then
        ({ L with dead := t :: L.dead, tracked := Option.none }, [Ev.cancelTimer])
      else (L, [])
    | Option.none => (L, [])
  ({ created := p.1.created + 1, dead := p.1.dead, tracked := some p.1.created },
    p.2 ++ [Ev.armTimer])

/-- A pending timer fires on its own (its callback is `get_status`, which
touches none of the modelled state). -/
def fireTimer (L : Ledger) (i : Nat) : Ledger :=
  if aliveT L i then { L with dead := i :: L.dead } else L

/-- The process-wide mutable state of the dispatcher: the cached session, the
cached `last_command_service_id` and the timer ledger. -/
structure St where
  conn : Option Session
  sid : Option PyVal
  ledger : Ledger

/-- An inbound command request (the parsed JSON message).  `kwargs` is a JSON
object when present. -/
structure Request where
  command : String
  vehicle_index : Option Int
  key : Option String
  kwargs : Option (List (String × PyVal))
  level : Option String

/-- The oracles surrounding the dispatcher: configuration switches, the
clock, the `jlrpy.Connection` constructor, and the per-command declared
parameter lists (`inspect.signature`), invocation results, `get_status` body
outcomes and log-level validity. -/
structure Env where
  multi_vehicle : Bool
  master_pin : Option String
  now : Int
  construct : Option Session
  params_of : String → Option (List String)
  invoke : String → List (String × PyVal) → Except String PyVal
  status_ex : Nat → Option String → Option String
  valid_log_level : String → Bool

/-- An error result dict with only a `status` field, as built by the
source's exception handlers and early-error paths. -/
def errStatusDict (msg : String) : PyVal := PyVal.dict [("status", PyVal.str msg)]

/-- Python string formatting of an optional integer (`"{}".format(x)`,
`None` prints as `None`). -/
def fmtOptInt : Option Int → String
  | Option.none => "None"
  | some x => toString x

/-- The parameter-mismatch message of source lines 585-586, reporting both
the given and the required parameter lists. -/
def valFailMsg (command : String) (given required : List String) : String :=
  "Parameter(s) missing for '" ++ command ++ "'. Given param(s): '" ++
    String.intercalate ", " given ++ "'; Required: '" ++
    String.intercalate ", " required ++ "'"

/-- The missing-kwargs message of source line 588. -/
def kwargsMissingMsg (command : String) (ps : List String) : String :=
  "'kwargs' dict with function parameters missing in json, for function '" ++
    command ++ "(" ++ String.intercalate "," ps ++ ")'"

/-- Source lines 577-579: when a `pin` parameter is declared, a master PIN is
configured (truthy) and no `pin` argument was supplied, add the master PIN to
the keyword arguments. -/
def inject_pin (mp : Option String) (func_params : List String)
    (kwargs : List (String × PyVal)) : List (String × PyVal) :=
  if func_params.contains "pin" && pinTruthy mp
      && !(kwargs.any (fun kv => kv.1 == "pin")) then
    kwargs ++ [("pin", PyVal.str (mp.getD ""))]
  else kwargs

/-- The dynamic-command inner try block of `do_command` (source lines
572-601): resolve the command on the vehicle handle, sort its declared
parameter names, inject the master PIN, validate, and invoke.  Returns the
`ret` value (the invocation result or the error dict built by the handler at
lines 598-601) together with the remote-call events issued. -/
def dynamic_branch (env : Env) (command : String)
    (kwargs0 : Option (List (String × PyVal))) : PyVal × List Ev :=
  match env.params_of command with
  | Option.none => (errStatusDict ("Error: AttributeError on '" ++ command ++ "'"), [])
  | some ps =>
    let func_params := sortStr ps
    let kwargs := inject_pin env.master_pin func_params (kwargs0.getD [])
    let given_params := sortStr (kwargs.map Prod.fst)
    if func_params ≠ [] ∧ given_params ≠ [] then
      if given_params = func_params then
        match env.invoke command kwargs with
        | Except.ok r => (r, [Ev.remoteCall command kwargs])
        | Except.error m =>
          (errStatusDict ("Error: " ++ m), [Ev.remoteCall command kwargs])
      else
        (errStatusDict ("Error: " ++ valFailMsg command given_params func_params), [])
    else if func_params ≠ [] ∧ kwargs.map Prod.fst = [] then
      (errStatusDict ("Error: " ++ kwargsMissingMsg command func_params), [])
    else
      match env.invoke command kwargs with
      | Except.ok r => (r, [Ev.remoteCall command kwargs])
      | Except.error m =>
        (errStatusDict ("Error: " ++ m), [Ev.remoteCall command kwargs])

/-- The truthiness-and-membership chain evaluated on a result both inside
`publish_command_response` (source line 365) and at source line 605:
`ret and "customerServiceId" in ret and ret["customerServiceId"]`, yielding
the new cached service id; `Except.error` when the chain raises. -/
def sid_of (ret : PyVal) : Except Unit (Option PyVal) :=
  if truthy ret then
    match py_in "customerServiceId" ret with
    | Except.error e => Except.error e
    | Except.ok b =>
      if b then
        match py_get ret "customerServiceId" with
        | Except.error e => Except.error e
        | Except.ok v => Except.ok (if truthy v then some v else Option.none)
      else Except.ok Option.none
  else Except.ok Option.none

/-- The success test of source line 607:
`ret and "status" in ret and not "Error" in ret["status"]`;
`Except.error` when the chain raises. -/
def success_of (ret : PyVal) : Except Unit Bool :=
  if truthy ret then
    match py_in "status" ret with
    | Except.error e => Except.error e
    | Except.ok b =>
      if b then
        match py_get ret "status" with
        | Except.error e => Except.error e
        | Except.ok v =>
          match py_in "Error" v with
          | Except.error e => Except.error e
          | Except.ok e => Except.ok (!e)
      else Except.ok false
  else Except.ok false

/-- Source lines 603-619: publish the command response, update the cached
service id, and on a non-error status log completion and (for a positive
refresh delay and a command other than `get_service_status`) replace the
pending refresh timer.  A raise in either membership chain escapes to the
top-level handler, aborting with the effects made so far. -/
def post_command (command : String) (delay : Int) (ret : PyVal) (st : St) :
    St × List Ev :=
  match sid_of ret with
  | Except.error _ => (st, [Ev.pubResponse ret])
  | Except.ok sid' =>
    let st1 : St := { st with sid := sid' }
    match success_of ret with
    | Except.error _ => (st1, [Ev.pubResponse ret])
    | Except.ok success =>
      if success then
        if delay > 0 ∧ command ≠ "get_service_status" then
          let p := armStep st1.ledger
          ({ st1 with ledger := p.1 }, [Ev.pubResponse ret, Ev.logCompleted] ++ p.2)
        else (st1, [Ev.pubResponse ret, Ev.logCompleted])
      else (st1, [Ev.pubResponse ret])

/-- Shallow embedding of `get_status` (source lines 448-511).  The body of
the `try` block (status, alerts, position, timers fetch and their
publication) is abstracted by the oracle `ex`: `some m` means some step of it
raises with description `m`, `none` means it completes.  The returned value
is exactly what the source returns. -/
def get_status (conn : Option Session) (idx : Nat) (for_key : Option String)
    (ex : Option String) : PyVal :=
  match conn with
  | some _ =>
    match ex with
    | some m =>
      PyVal.dict [("status", PyVal.str "Error"), ("errorDescription", PyVal.str m)]
    | Option.none =>
      PyVal.dict [("status", PyVal.str "Completed"), ("vehicle_index", PyVal.int idx),
        ("command", PyVal.str "get_status")]
  | Option.none =>
    PyVal.dict [("status", PyVal.str "Error"),
      ("errorDescription", PyVal.str ("get_status(" ++
        (match for_key with | some k => k | Option.none => "None") ++
        ") failed as no connection available"))]

/-- Source lines 524-535: resolution of the effective vehicle index.
`none` means the invalid-index error path (publish an error and return). -/
def resolve_vehicle_index (multi : Bool) (count : Nat) (vi : Option Int) :
    Option Nat :=
  if multi then
    if count == 1 then some 0
    else
      match vi with
      | Option.none => Option.none
      | some x =>
        if x < 0 ∨ (count : Int) - 1 < x then Option.none else some x.toNat
  else some 0

/-- The initial `publish_command_response({"status": ""})` of source
line 518, clearing historical response data. -/
def placeholderEv : Ev := Ev.pubResponse (PyVal.dict [("status", PyVal.str "")])

/-- The branch dispatch of `do_command` (source lines 539-619) once a
session, a vehicle index and a vehicle handle are secured: internal commands
(`set_log_level`, `init_ha_discovery`, `get_status`,
`refresh_last_command_status`) first, then the dynamic remote path, each
followed by the post-processing of lines 603-619.  `recurse` is the
recursive dispatch used by `refresh_last_command_status`. -/
def command_branch (env : Env) (recurse : St → Request → St × List Ev)
    (st : St) (idx : Nat) (jd : Request) : St × List Ev :=
  if jd.command = "set_log_level" then
    match jd.level with
    | some lv =>
      if env.valid_log_level lv then
        post_command jd.command (-1) (PyVal.dict [("status", PyVal.str "Completed")]) st
      else (st, [])
    | Option.none =>
      post_command jd.command (-1)
        (errStatusDict "Error: Log level not key 'level' not found") st
  else if jd.command = "init_ha_discovery" then
    post_command jd.command (-1)
      (get_status st.conn idx Option.none (env.status_ex idx Option.none)) st
  else if jd.command = "get_status" then
    post_command jd.command (-1)
      (get_status st.conn idx jd.key (env.status_ex idx jd.key)) st
  else if jd.command = "refresh_last_command_status" then
    match st.sid with
    | some sv =>
      if truthy sv then
        recurse st
          { command := "get_service_status", vehicle_index := some (Int.ofNat idx),
            key := Option.none, kwargs := some [("service_id", sv)], level := Option.none }
      else post_command jd.command 60 PyVal.none st
    | Option.none => post_command jd.command 60 PyVal.none st
  else
    let p := dynamic_branch env jd.command jd.kwargs
    let q := post_command jd.command 60 p.1 st
    (q.1, p.2 ++ q.2)

/-- Shallow embedding of `do_command` (source lines 514-626).  The fuel
bounds the recursion depth of `refresh_last_command_status`; the only
recursive call carries the command `get_service_status`, so the source's
recursion depth is at most one and any fuel of at least two is exact. -/
def do_command (env : Env) : Nat → St → Request → St × List Ev
  | 0, st, _ => (st, [])
  | fuel + 1, st, jd =>
    match get_jlr_connection st.conn env.now env.construct with
    | (conn', ConnOutcome.raised) => ({ st with conn := conn' }, [placeholderEv])
    | (conn', ConnOutcome.ok _) =>
      match conn' with
      | Option.none =>
        ({ st with conn := Option.none },
          [placeholderEv, Ev.pubResponse (errStatusDict ("Error: '" ++ jd.command ++
            "' command failed as connection to JLR is unavailable"))])
      | some conn =>
        let st1 : St := { st with conn := some conn }
        match resolve_vehicle_index env.multi_vehicle conn.vehicle_count jd.vehicle_index with
        | Option.none =>
          (st1, [placeholderEv, Ev.pubResponse (errStatusDict ("Error: command '" ++
            jd.command ++ "' failed as vehicle index " ++ fmtOptInt jd.vehicle_index ++
            " is invalid"))])
        | some idx =>
          if conn.vehicle_count ≤ idx then (st1, [placeholderEv])
          else
            let p := command_branch env (do_command env fuel) st1 idx jd
            (p.1, placeholderEv :: p.2)

/-- One external step of the process: a dispatched command or a timer
firing. -/
inductive SStep where
  | cmd (jd : Request)
  | fire (i : Nat)

/-- The state at process start: no session, no cached service id, no timer
ever created. -/
def initSt : St :=
  { conn := Option.none, sid := Option.none,
    ledger := { created := 0, dead := [], tracked := Option.none } }

/-- Effect of one external step on the state. -/
def stepRun (env : Env) (st : St) : SStep → St
  | SStep.cmd jd => (do_command env 4 st jd).1
  | SStep.fire i => { st with ledger := fireTimer st.ledger i }

/-- The state after a sequence of external steps from process start. -/
def runSteps (env : Env) (steps : List SStep) : St :=
  steps.foldl (stepRun env) initSt

/-- Follows the claim's words for C10: the result is a mapping containing a
`status` field whose value does not contain the substring `Error` (a
non-string value contains no substring). -/
def claimC10_success (ret : PyVal) : Bool :=
  match ret with
  | PyVal.dict fs =>
    match fs.lookup "status" with
    | some (PyVal.str s) => !(strContains s "Error")
    | some _ => true
    | Option.none => false
  | _ => false

/-- A single-vehicle session fixture used by concrete instantiations. -/
def sessionW : Session := { expiration := 1000, vehicle_count := 1 }

/-- A session fixture with three vehicles. -/
def sessionM : Session := { expiration := 1000, vehicle_count := 3 }

/-- An environment fixture: single-vehicle mode, no master PIN, a remote API
exposing `lock(pin)`, `honk_blink(pin, a)` and `get_service_status(service_id)`,
every invocation succeeding with a `Started` result. -/
def envW : Env :=
  { multi_vehicle := false, master_pin := Option.none, now := 0,
    construct := Option.none,
    params_of := fun c =>
      if c = "lock" then some ["pin"]
      else if c = "honk_blink" then some ["pin", "a"]
      else if c = "get_service_status" then some ["service_id"]
      else Option.none,
    invoke := fun _ _ => Except.ok (PyVal.dict [("status", PyVal.str "Started"),
      ("customerServiceId", PyVal.str "svc1")]),
    status_ex := fun _ _ => Option.none,
    valid_log_level := fun _ => true }

/-- The fixture `envW` with a configured master PIN. -/
def envPin : Env := { envW with master_pin := some "1234" }

/-- The fixture `envW` with multi-vehicle support enabled. -/
def envMulti : Env := { envW with multi_vehicle := true }

/-- Initial-like state with a valid cached single-vehicle session. -/
def stW : St :=
  { conn := some sessionW, sid := Option.none,
    ledger := { created := 0, dead := [], tracked := Option.none } }

/-- State with a valid cached three-vehicle session. -/
def stM : St :=
  { conn := some sessionM, sid := Option.none,
    ledger := { created := 0, dead := [], tracked := Option.none } }

/-- A request fixture for a dynamic remote command. -/
def reqHonk : Request :=
  { command := "honk_blink", vehicle_index := Option.none, key := Option.none,
    kwargs := some [("a", PyVal.int 1)], level := Option.none }

/-- A request fixture for `refresh_last_command_status`. -/
def reqRefresh : Request :=
  { command := "refresh_last_command_status", vehicle_index := Option.none,
    key := Option.none, kwargs := Option.none, level := Option.none }

/-- A request fixture for the one-parameter `lock` command with a matching
argument. -/
def reqLock : Request :=
  { command := "lock", vehicle_index := Option.none, key := Option.none,
    kwargs := some [("pin", PyVal.str "9999")], level := Option.none }

lemma string_append_left_cancel {a x y : String} (h : a ++ x = a ++ y) : x = y := by
  have hd := congrArg String.data h
  simp only [String.data_append] at hd
  exact String.ext (List.append_cancel_left hd)

lemma takeWhile_ne_of_not_contains :
    ∀ (l : List Char), l.contains '_' = false → l.takeWhile (fun c => c != '_') = l := by
  intro l
  induction l with
  | nil => intro _; rfl
  | cons a t ih =>
    intro h
    have ha : (a == '_') = false := by
      by_cases hc : a = '_'
      · subst hc
        simp [List.contains_cons] at h
      · simp [hc]
    have ht : t.contains '_' = false := by
      simp only [List.contains_cons, Bool.or_eq_false_iff] at h
      exact h.2
    have ha' : (a != '_') = true := by simp [bne, ha]
    simp [List.takeWhile_cons, ha', ih ht]

lemma split_head_of_no_underscore (s : String) (h : s.data.contains '_' = false) :
    split_head s = s := by
  unfold split_head
  rw [takeWhile_ne_of_not_contains s.data h]

/-- C2 (corrected): two distinct (sensor type, key, value item) tuples accepted by
the discovery derivation can collide.  For sensor type `status` with the category
really derived from the key, the unique identifier ignores the value item: the
tuples `("status", "ENGINE_TEMP", "value")` and `("status", "ENGINE_TEMP",
"active")` are distinct yet get the same identifier. -/
theorem C2_counterexample :
    get_category_from_key "ENGINE_TEMP" = some "ENGINE" ∧
    ha_unique_id "status" (some "ENGINE") "ENGINE_TEMP" (some "value") =
      ha_unique_id "status" (some "ENGINE") "ENGINE_TEMP" (some "active") ∧
    ("value" : String) ≠ "active" :=
  ⟨rfl, rfl, by decide⟩

/-- C2 amended: the unique identifier is a pure function of (sensor type,
category, key, value item), but it is not injective: for sensor type `status`
with a truthy category it does not depend on the value item at all (so two
tuples differing only there collide), while for any other sensor type with
a truthy category it distinguishes value items whose lower-casings differ. -/
theorem ha_unique_id_amended :
    (∀ (category : Option String) (key : String) (v1 v2 : Option String),
      optStrTruthy category = true →
      ha_unique_id "status" category key v1 = ha_unique_id "status" category key v2) ∧
    (∀ (sensor_type : String) (category : Option String) (key : String) (v1 v2 : String),
      optStrTruthy category = true → sensor_type ≠ "status" →
      lowerStr v1 ≠ lowerStr v2 →
      ha_unique_id sensor_type category key (some v1) ≠
        ha_unique_id sensor_type category key (some v2)) := by
  constructor
  · intro category key v1 v2 hcat
    simp [ha_unique_id, hcat]
  · intro sensor_type category key v1 v2 hcat hst hne
    have e : ∀ v : String, ha_unique_id sensor_type category key (some v) =
        Except.ok ("jlr_" ++ lowerStr sensor_type ++ "_" ++ lowerStr key ++ "_"
          ++ lowerStr v) := by
      intro v
      simp [ha_unique_id, hcat, hst]
    rw [e v1, e v2]
    intro h
    have h2 := Except.ok.inj h
    exact hne (string_append_left_cancel h2)

/-- Witness for the amended C2 theorem at concrete inputs. -/
theorem ha_unique_id_amended_witness :
    ha_unique_id "status" (some "ENGINE") "ENGINE_TEMP" (some "value") =
      ha_unique_id "status" (some "ENGINE") "ENGINE_TEMP" (some "lastUpdatedTime") ∧
    ha_unique_id "alerts" (some "x") "x_y" (some "value") ≠
      ha_unique_id "alerts" (some "x") "x_y" (some "active") :=
  ⟨ha_unique_id_amended.1 (some "ENGINE") "ENGINE_TEMP" (some "value")
      (some "lastUpdatedTime") rfl,
   ha_unique_id_amended.2 "alerts" (some "x") "x_y" "value" "active" rfl
      (by decide) (by decide)⟩

/-- C3 (corrected): with a cached session that has expired, the same call does
not construct a new session (although the constructor oracle would succeed):
it clears the cache and returns no session. -/
theorem C3_counterexample :
    get_jlr_connection (some { expiration := 0, vehicle_count := 1 }) 1 (some sessionW)
      = (Option.none, ConnOutcome.ok Option.none) ∧
    ConnOutcome.ok Option.none ≠ ConnOutcome.ok (some sessionW) :=
  ⟨rfl, by decide⟩

/-- C3 amended: a cached session whose expiration is not earlier than now is
returned unchanged; an expired cached session is cleared and the call returns
no session (a new session is only constructed on the next call); with no
cached session the call constructs and returns a new session from the
configured credentials and device identifier, and on construction failure the
call raises with the cached session left unset. -/
theorem get_jlr_connection_amended :
    (∀ (s : Session) (now : Int) (construct : Option Session), ¬ s.expiration < now →
      get_jlr_connection (some s) now construct = (some s, ConnOutcome.ok (some s))) ∧
    (∀ (s : Session) (now : Int) (construct : Option Session), s.expiration < now →
      get_jlr_connection (some s) now construct = (Option.none, ConnOutcome.ok Option.none)) ∧
    (∀ (now : Int) (s : Session),
      get_jlr_connection Option.none now (some s) = (some s, ConnOutcome.ok (some s))) ∧
    (∀ (now : Int),
      get_jlr_connection Option.none now Option.none = (Option.none, ConnOutcome.raised)) := by
  refine ⟨?_, ?_, ?_, ?_⟩
  · intro s now construct h
    show (if s.expiration < now then ((Option.none : Option Session), ConnOutcome.ok Option.none)
      else (some s, ConnOutcome.ok (some s))) = (some s, ConnOutcome.ok (some s))
    rw [if_neg h]
  · intro s now construct h
    show (if s.expiration < now then ((Option.none : Option Session), ConnOutcome.ok Option.none)
      else (some s, ConnOutcome.ok (some s))) = (Option.none, ConnOutcome.ok Option.none)
    rw [if_pos h]
  · intro now s; rfl
  · intro now; rfl

/-- Witness for the amended C3 theorem at concrete inputs. -/
theorem get_jlr_connection_amended_witness :
    get_jlr_connection (some sessionW) 0 Option.none =
      (some sessionW, ConnOutcome.ok (some sessionW)) ∧
    get_jlr_connection (some { expiration := 0, vehicle_count := 1 }) 5 Option.none =
      (Option.none, ConnOutcome.ok Option.none) :=
  ⟨get_jlr_connection_amended.1 sessionW 0 Option.none (by decide),
   get_jlr_connection_amended.2.1 { expiration := 0, vehicle_count := 1 } 5 Option.none
     (by decide)⟩

/-- C7 (confirmed): `get_status` without an active session returns a
structured error result immediately; with a session, an internal failure is
caught and converted to a structured error result, and success returns
exactly the dict with status `Completed`, the vehicle index and the command
name; the dispatcher's success test accepts the result exactly when a session
existed and nothing raised. -/
theorem get_status_spec :
    (∀ (idx : Nat) (k : Option String) (ex : Option String),
      get_status Option.none idx k ex =
        PyVal.dict [("status", PyVal.str "Error"),
          ("errorDescription", PyVal.str ("get_status(" ++
            (match k with | some s => s | Option.none => "None") ++
            ") failed as no connection available"))]) ∧
    (∀ (s : Session) (idx : Nat) (k : Option String) (m : String),
      get_status (some s) idx k (some m) =
        PyVal.dict [("status", PyVal.str "Error"), ("errorDescription", PyVal.str m)]) ∧
    (∀ (s : Session) (idx : Nat) (k : Option String),
      get_status (some s) idx k Option.none =
        PyVal.dict [("status", PyVal.str "Completed"), ("vehicle_index", PyVal.int idx),
          ("command", PyVal.str "get_status")]) ∧
    (∀ (conn : Option Session) (idx : Nat) (k : Option String) (ex : Option String),
      success_of (get_status conn idx k ex) = Except.ok (conn.isSome && ex.isNone)) := by
  refine ⟨fun _ _ _ => rfl, fun _ _ _ _ => rfl, fun _ _ _ => rfl, ?_⟩
  intro conn idx k ex
  cases conn with
  | none => rfl
  | some s => cases ex with
    | none => rfl
    | some m => rfl

/-- C8 (corrected): the flattener derives the category with
`element[key].split("_")[0]`, so for a key with no underscore the category
segment is the whole key, not absent: the element with key `odometer` is
published to `.../status/odometer/odometer`, while the spec's words would put
it at `.../status/odometer`. -/
theorem C8_counterexample :
    publish_status_dict "jlr2mqtt" "status"
        [[("key", PyVal.str "odometer"), ("value", PyVal.int 87)]] "key" "TS"
      = Except.ok [("jlr2mqtt/status/odometer/odometer", PyVal.int 87),
          ("jlr2mqtt/last_update_ts", PyVal.str "TS")] ∧
    spec_flatten_topic_base "jlr2mqtt" "status" "odometer" = "jlr2mqtt/status/odometer" ∧
    ("jlr2mqtt/status/odometer/odometer" : String) ≠ "jlr2mqtt/status/odometer" :=
  ⟨rfl, rfl, by decide⟩

/-- C8 amended: the category segment of a published topic is the substring of
the element's key before its first underscore, and the whole key when the key
contains no underscore (when an underscore is present it agrees with
`get_category_from_key`); an element with exactly the key field and a value
field has its value published directly to the topic base, and any other
element carrying the key field has each non-key property published to
`topic_base/property_name`. -/
theorem publish_status_dict_amended :
    (∀ (s : String), s.data.contains '_' = false → split_head s = s) ∧
    (∀ (s : String), s.data.contains '_' = true →
      get_category_from_key s = some (split_head s)) ∧
    (∀ (root sub s : String) (w : PyVal),
      flatten_element root sub "key" [("key", PyVal.str s), ("value", w)] =
        Except.ok [(root ++ "/" ++ sub ++ "/" ++ split_head s ++ "/" ++ lowerStr s, w)]) ∧
    (∀ (root sub s : String) (element : Element),
      element.lookup "key" = some (PyVal.str s) →
      (element.length == 2 && element.any (fun kv => kv.1 == "key")
        && element.any (fun kv => kv.1 == "value")) = false →
      flatten_element root sub "key" element =
        Except.ok ((element.filter (fun kv => kv.1 ≠ "key")).map
          (fun kv => (root ++ "/" ++ sub ++ "/" ++ split_head s ++ "/" ++ lowerStr s
            ++ "/" ++ kv.1, kv.2)))) := by
  refine ⟨split_head_of_no_underscore, ?_, ?_, ?_⟩
  · intro s h
    unfold get_category_from_key
    rw [if_pos h]
  · intro root sub s w; rfl
  · intro root sub s element hk hcond
    unfold flatten_element
    rw [hk, hcond]
    simp

/-- Witness for the amended C8 theorem at concrete inputs. -/
theorem publish_status_dict_amended_witness :
    split_head "odometer" = "odometer" ∧
    get_category_from_key "ENGINE_COOLANT" = some (split_head "ENGINE_COOLANT") ∧
    flatten_element "r" "alerts" "key"
        [("key", PyVal.str "x_y"), ("value", PyVal.int 1), ("active", PyVal.str "T")] =
      Except.ok [("r/alerts/x/x_y/value", PyVal.int 1),
        ("r/alerts/x/x_y/active", PyVal.str "T")] := by
  refine ⟨publish_status_dict_amended.1 "odometer" (by decide),
    publish_status_dict_amended.2.1 "ENGINE_COOLANT" (by decide), ?_⟩
  have h := publish_status_dict_amended.2.2.2 "r" "alerts" "x_y"
    [("key", PyVal.str "x_y"), ("value", PyVal.int 1), ("active", PyVal.str "T")]
    rfl (by decide)
  exact h.trans (by rfl)

lemma do_command_badindex (env : Env) (fuel : Nat) (st : St) (jd : Request) (c : Session)
    (h1 : st.conn = some c) (h2 : ¬ c.expiration < env.now)
    (h3 : resolve_vehicle_index env.multi_vehicle c.vehicle_count jd.vehicle_index = Option.none) :
    do_command env (fuel + 1) st jd =
      (st, [placeholderEv, Ev.pubResponse (errStatusDict ("Error: command '" ++
        jd.command ++ "' failed as vehicle index " ++ fmtOptInt jd.vehicle_index ++
        " is invalid"))]) := by
  obtain ⟨conn0, sid0, L0⟩ := st
  simp only at h1
  subst h1
  simp only [do_command, get_jlr_connection]
  rw [if_neg h2]
  simp only [h3]

lemma do_command_branches (env : Env) (fuel : Nat) (st : St) (jd : Request) (c : Session)
    (idx : Nat) (h1 : st.conn = some c) (h2 : ¬ c.expiration < env.now)
    (h3 : resolve_vehicle_index env.multi_vehicle c.vehicle_count jd.vehicle_index = some idx)
    (h4 : idx < c.vehicle_count) :
    do_command env (fuel + 1) st jd =
      ((command_branch env (do_command env fuel) st idx jd).1,
        placeholderEv :: (command_branch env (do_command env fuel) st idx jd).2) := by
  obtain ⟨conn0, sid0, L0⟩ := st
  simp only at h1
  subst h1
  simp only [do_command, get_jlr_connection]
  rw [if_neg h2]
  simp only [h3]
  rw [if_neg (by omega : ¬ c.vehicle_count ≤ idx)]

/-- C5 (confirmed): with multi-vehicle support and exactly one vehicle every
request resolves to index 0 (any explicit index is overridden); with
multi-vehicle support disabled the index is always 0; with several vehicles a
present in-range index resolves to itself, while a missing or out-of-range
index makes `do_command` publish an error result and stop, with no remote
call issued. -/
theorem vehicle_index_resolution :
    (∀ vi, resolve_vehicle_index true 1 vi = some 0) ∧
    (∀ (count : Nat) (vi : Option Int), resolve_vehicle_index false count vi = some 0) ∧
    (∀ (count : Nat), 2 ≤ count → ∀ (x : Int), 0 ≤ x → x < (count : Int) →
      resolve_vehicle_index true count (some x) = some x.toNat) ∧
    (∀ (count : Nat), 2 ≤ count →
      resolve_vehicle_index true count Option.none = Option.none) ∧
    (∀ (count : Nat) (x : Int), 2 ≤ count → (x < 0 ∨ (count : Int) ≤ x) →
      resolve_vehicle_index true count (some x) = Option.none) ∧
    (∀ (env : Env) (fuel : Nat) (st : St) (jd : Request) (c : Session),
      st.conn = some c → ¬ c.expiration < env.now → env.multi_vehicle = true →
      resolve_vehicle_index true c.vehicle_count jd.vehicle_index = Option.none →
      do_command env (fuel + 1) st jd =
        (st, [placeholderEv, Ev.pubResponse (errStatusDict ("Error: command '" ++
          jd.command ++ "' failed as vehicle index " ++ fmtOptInt jd.vehicle_index ++
          " is invalid"))])) := by
  refine ⟨fun vi => rfl, fun count vi => rfl, ?_, ?_, ?_, ?_⟩
  · intro count h2 x hx0 hxc
    have hc : (count == 1) = false := by
      simp only [beq_eq_false_iff_ne]
      omega
    simp only [resolve_vehicle_index, if_true, hc, Bool.false_eq_true, if_false]
    rw [if_neg (by omega : ¬ (x < 0 ∨ (count : Int) - 1 < x))]
  · intro count h2
    have hc : (count == 1) = false := by
      simp only [beq_eq_false_iff_ne]
      omega
    simp [resolve_vehicle_index, hc]
  · intro count x h2 hx
    have hc : (count == 1) = false := by
      simp only [beq_eq_false_iff_ne]
      omega
    simp only [resolve_vehicle_index, if_true, hc, Bool.false_eq_true, if_false]
    rw [if_pos (by rcases hx with hx | hx
                   · exact Or.inl hx
                   · exact Or.inr (by omega))]
  · intro env fuel st jd c h1 h2 hm h5
    exact do_command_badindex env fuel st jd c h1 h2 (by rw [hm]; exact h5)

/-- Witness for the C5 theorem at concrete inputs. -/
theorem vehicle_index_resolution_witness :
    resolve_vehicle_index true 3 (some 1) = some 1 ∧
    resolve_vehicle_index true 3 (some 5) = Option.none ∧
    do_command envMulti 1 stM
        { command := "lock", vehicle_index := some 5, key := Option.none,
          kwargs := Option.none, level := Option.none } =
      (stM, [placeholderEv,
        Ev.pubResponse (errStatusDict
          "Error: command 'lock' failed as vehicle index 5 is invalid")]) := by
  refine ⟨vehicle_index_resolution.2.2.1 3 (by decide) 1 (by decide) (by decide), ?_, ?_⟩
  · exact vehicle_index_resolution.2.2.2.2.1 3 5 (by decide) (Or.inr (by decide))
  · exact (vehicle_index_resolution.2.2.2.2.2 envMulti 0 stM
      { command := "lock", vehicle_index := some 5, key := Option.none,
        kwargs := Option.none, level := Option.none } sessionM rfl (by decide) rfl
      (by decide)).trans (by rfl)

lemma char_toNat_inj {a b : Char} (h : a.toNat = b.toNat) : a = b :=
  Char.ext (UInt32.ext h)

lemma lexLe_total : ∀ a b, lexLe a b = true ∨ lexLe b a = true := by
  intro a
  induction a with
  | nil => intro b; exact Or.inl rfl
  | cons x xs ih =>
    intro b
    cases b with
    | nil => exact Or.inr rfl
    | cons y ys =>
      by_cases h1 : x.toNat < y.toNat
      · left; simp [lexLe, h1]
      · by_cases h2 : y.toNat < x.toNat
        · right; simp [lexLe, h2]
        · rcases ih ys with h | h
          · left; simp [lexLe, h1, h2, h]
          · right; simp [lexLe, h1, h2, h]

lemma lexLe_trans : ∀ a b c, lexLe a b = true → lexLe b c = true → lexLe a c = true := by
  intro a
  induction a with
  | nil => intro b c _ _; rfl
  | cons x xs ih =>
    intro b c hab hbc
    cases b with
    | nil => simp [lexLe] at hab
    | cons y ys =>
      cases c with
      | nil => simp [lexLe] at hbc
      | cons z zs =>
        by_cases h1 : x.toNat < y.toNat
        · by_cases h2 : y.toNat < z.toNat
          · simp [lexLe, show x.toNat < z.toNat by omega]
          · by_cases h3 : z.toNat < y.toNat
            · simp [lexLe, h2, h3] at hbc
            · simp [lexLe, show x.toNat < z.toNat by omega]
        · by_cases h4 : y.toNat < x.toNat
          · simp [lexLe, h1, h4] at hab
          · by_cases h2 : y.toNat < z.toNat
            · simp [lexLe, show x.toNat < z.toNat by omega]
            · by_cases h3 : z.toNat < y.toNat
              · simp [lexLe, h2, h3] at hbc
              · simp [lexLe, h1, h4] at hab
                simp [lexLe, h2, h3] at hbc
                simp [lexLe, show ¬ x.toNat < z.toNat by omega,
                  show ¬ z.toNat < x.toNat by omega, ih ys zs hab hbc]

lemma lexLe_antisymm : ∀ a b, lexLe a b = true → lexLe b a = true → a = b := by
  intro a
  induction a with
  | nil =>
    intro b _ hba
    cases b with
    | nil => rfl
    | cons y ys => simp [lexLe] at hba
  | cons x xs ih =>
    intro b hab hba
    cases b with
    | nil => simp [lexLe] at hab
    | cons y ys =>
      by_cases h1 : x.toNat < y.toNat
      · simp [lexLe, h1, show ¬ y.toNat < x.toNat by omega] at hba
      · by_cases h2 : y.toNat < x.toNat
        · simp [lexLe, h1, h2] at hab
        · have hx : x = y := char_toNat_inj (by omega)
          subst hx
          simp [lexLe, h1, h2] at hab hba
          rw [ih ys hab hba]

instance : IsTotal String (fun a b => pyStrLe a b = true) :=
  ⟨fun a b => lexLe_total a.data b.data⟩

instance : IsTrans String (fun a b => pyStrLe a b = true) :=
  ⟨fun a b c => lexLe_trans a.data b.data c.data⟩

instance : IsAntisymm String (fun a b => pyStrLe a b = true) :=
  ⟨fun a b hab hba => String.ext (lexLe_antisymm a.data b.data hab hba)⟩

lemma sortStr_perm (l : List String) : List.Perm (sortStr l) l :=
  List.perm_insertionSort _ l

lemma sortStr_sorted (l : List String) :
    List.Sorted (fun a b => pyStrLe a b = true) (sortStr l) :=
  List.sorted_insertionSort _ l

lemma sortStr_eq_iff_perm (a b : List String) : sortStr a = sortStr b ↔ a.Perm b := by
  constructor
  · intro h
    exact (sortStr_perm a).symm.trans (h ▸ sortStr_perm b)
  · intro h
    exact List.eq_of_perm_of_sorted
      ((sortStr_perm a).trans (h.trans (sortStr_perm b).symm))
      (sortStr_sorted a) (sortStr_sorted b)

lemma sortStr_eq_nil_iff (l : List String) : sortStr l = [] ↔ l = [] := by
  constructor
  · intro h
    have := (sortStr_perm l).symm.length_eq
    rw [h] at this
    exact List.length_eq_zero.mp (by simpa using this)
  · intro h; subst h; rfl


lemma any_key_eq_lookup_isSome (fs : List (String × PyVal)) (k : String) :
    fs.any (fun kv => kv.1 == k) = (fs.lookup k).isSome := by
  induction fs with
  | nil => rfl
  | cons kv rest ih =>
    obtain ⟨a, b⟩ := kv
    by_cases hak : a = k
    · subst hak
      simp [List.lookup, List.any_cons]
    · have h1 : (a == k) = false := by simp [hak]
      have h2 : (k == a) = false := by simp [Ne.symm hak]
      simp [List.lookup, List.any_cons, h1, h2, ih]

lemma success_of_ok_true_iff (ret : PyVal) :
    success_of ret = Except.ok true ↔
      ∃ fs v, ret = PyVal.dict fs ∧ fs.lookup "status" = some v ∧
        py_in "Error" v = Except.ok false := by
  cases ret with
  | none => simp [success_of, truthy]
  | int n =>
    by_cases h : (n != 0) = true
    · simp [success_of, truthy, h, py_in]
    · simp [success_of, truthy, h]
  | str s =>
    by_cases h : (s != "") = true
    · by_cases h2 : strContains s "status" = true
      · simp [success_of, truthy, h, py_in, h2, py_get]
      · simp [success_of, truthy, h, py_in, h2]
    · simp [success_of, truthy, h]
  | list xs =>
    by_cases h : xs.isEmpty = true
    · simp [success_of, truthy, h]
    · by_cases h2 : (xs.any (fun v => match v with
        | PyVal.str s => s == "status"
        | _ => false)) = true
      · simp [success_of, truthy, h, py_in, h2, py_get]
      · simp [success_of, truthy, h, py_in, h2]
  | dict fs =>
    by_cases h : fs.isEmpty = true
    · have hnil : fs = [] := by simpa using h
      subst hnil
      simp [success_of, truthy]
    · have htr : truthy (PyVal.dict fs) = true := by simp [truthy, h]
      cases hl : fs.lookup "status" with
      | none =>
        have hin : py_in "status" (PyVal.dict fs) = Except.ok false := by
          simp only [py_in]
          rw [any_key_eq_lookup_isSome, hl]
          rfl
        simp [success_of, htr, hin, hl]
      | some v =>
        have hin : py_in "status" (PyVal.dict fs) = Except.ok true := by
          simp only [py_in]
          rw [any_key_eq_lookup_isSome, hl]
          rfl
        have hget : py_get (PyVal.dict fs) "status" = Except.ok v := by
          simp [py_get, hl]
        cases he : py_in "Error" v with
        | error u =>
          simp [success_of, htr, hin, hget, he, hl]
        | ok b =>
          simp only [success_of, htr, hin, hget, he, if_true]
          cases b with
          | false => simp [hl, he]
          | true => simp [hl, he]

lemma sid_of_dict_not_error (fs : List (String × PyVal)) :
    sid_of (PyVal.dict fs) ≠ Except.error () := by
  by_cases h : fs.isEmpty = true
  · have hnil : fs = [] := by simpa using h
    subst hnil
    simp [sid_of, truthy]
  · have htr : truthy (PyVal.dict fs) = true := by simp [truthy, h]
    cases hl : fs.lookup "customerServiceId" with
    | none =>
      have hin : py_in "customerServiceId" (PyVal.dict fs) = Except.ok false := by
        simp only [py_in]
        rw [any_key_eq_lookup_isSome, hl]
        rfl
      simp [sid_of, htr, hin]
    | some v =>
      have hin : py_in "customerServiceId" (PyVal.dict fs) = Except.ok true := by
        simp only [py_in]
        rw [any_key_eq_lookup_isSome, hl]
        rfl
      have hget : py_get (PyVal.dict fs) "customerServiceId" = Except.ok v := by
        simp [py_get, hl]
      simp [sid_of, htr, hin, hget]

lemma sid_of_ok_some_iff (ret : PyVal) (v : PyVal) :
    sid_of ret = Except.ok (some v) ↔
      ∃ fs, ret = PyVal.dict fs ∧ fs.lookup "customerServiceId" = some v ∧
        truthy v = true := by
  cases ret with
  | none => simp [sid_of, truthy]
  | int n =>
    by_cases h : (n != 0) = true
    · simp [sid_of, truthy, h, py_in]
    · simp [sid_of, truthy, h]
  | str s =>
    by_cases h : (s != "") = true
    · by_cases h2 : strContains s "customerServiceId" = true
      · simp [sid_of, truthy, h, py_in, h2, py_get]
      · simp [sid_of, truthy, h, py_in, h2]
    · simp [sid_of, truthy, h]
  | list xs =>
    by_cases h : xs.isEmpty = true
    · simp [sid_of, truthy, h]
    · by_cases h2 : (xs.any (fun w => match w with
        | PyVal.str s => s == "customerServiceId"
        | _ => false)) = true
      · simp [sid_of, truthy, h, py_in, h2, py_get]
      · simp [sid_of, truthy, h, py_in, h2]
  | dict fs =>
    by_cases h : fs.isEmpty = true
    · have hnil : fs = [] := by simpa using h
      subst hnil
      simp [sid_of, truthy]
    · have htr : truthy (PyVal.dict fs) = true := by simp [truthy, h]
      cases hl : fs.lookup "customerServiceId" with
      | none =>
        have hin : py_in "customerServiceId" (PyVal.dict fs) = Except.ok false := by
          simp only [py_in]
          rw [any_key_eq_lookup_isSome, hl]
          rfl
        simp [sid_of, htr, hin, hl]
      | some w =>
        have hin : py_in "customerServiceId" (PyVal.dict fs) = Except.ok true := by
          simp only [py_in]
          rw [any_key_eq_lookup_isSome, hl]
          rfl
        have hget : py_get (PyVal.dict fs) "customerServiceId" = Except.ok w := by
          simp [py_get, hl]
        cases ht : truthy w with
        | true =>
          simp only [sid_of, htr, hin, hget, ht, if_true]
          simp [hl]
          rintro rfl
          exact ht
        | false =>
          simp only [sid_of, htr, hin, hget, ht, if_true]
          simp [hl]
          rintro rfl
          exact ht


lemma success_ok_true_no_sid_error (ret : PyVal) (h : sid_of ret = Except.error ()) :
    success_of ret ≠ Except.ok true := by
  intro hs
  obtain ⟨fs, v, rfl, _, _⟩ := (success_of_ok_true_iff ret).mp hs
  exact sid_of_dict_not_error fs h

lemma armStep_events (L : Ledger) :
    (armStep L).2 = [Ev.armTimer] ∨ (armStep L).2 = [Ev.cancelTimer, Ev.armTimer] := by
  unfold armStep
  cases L.tracked with
  | none => left; rfl
  | some t =>
    by_cases h : aliveT L t = true
    · right; simp [h]
    · left; simp [h]

lemma pubResponse_mem_post (cmd : String) (d : Int) (ret : PyVal) (st : St) :
    Ev.pubResponse ret ∈ (post_command cmd d ret st).2 := by
  unfold post_command
  cases h1 : sid_of ret with
  | error e => simp
  | ok sid' =>
    cases h2 : success_of ret with
    | error e => simp
    | ok s =>
      cases s with
      | false => simp
      | true =>
        by_cases hc : (0 : Int) < d ∧ cmd ≠ "get_service_status"
        · simp only [if_true, if_pos hc]
          simp
        · simp only [if_true, if_neg hc]
          simp

lemma remoteCall_not_mem_post (cmd : String) (d : Int) (ret : PyVal) (st : St)
    (a : String) (ks : List (String × PyVal)) :
    Ev.remoteCall a ks ∉ (post_command cmd d ret st).2 := by
  unfold post_command
  cases h1 : sid_of ret with
  | error e => simp
  | ok sid' =>
    cases h2 : success_of ret with
    | error e => simp
    | ok s =>
      cases s with
      | false => simp
      | true =>
        by_cases hc : (0 : Int) < d ∧ cmd ≠ "get_service_status"
        · simp only [if_true, if_pos hc]
          rcases armStep_events st.ledger with h | h <;> simp [h]
        · simp only [if_true, if_neg hc]
          simp

lemma armTimer_mem_post_iff (cmd : String) (d : Int) (ret : PyVal) (st : St) :
    Ev.armTimer ∈ (post_command cmd d ret st).2 ↔
      (success_of ret = Except.ok true ∧ 0 < d ∧ cmd ≠ "get_service_status") := by
  unfold post_command
  cases h1 : sid_of ret with
  | error e =>
    simp only [List.mem_singleton]
    constructor
    · intro h; exact absurd h (by simp)
    · rintro ⟨hs, _⟩
      exact absurd hs (success_ok_true_no_sid_error ret h1)
  | ok sid' =>
    cases h2 : success_of ret with
    | error e =>
      constructor
      · intro h; exact absurd h (by simp)
      · rintro ⟨hs, _⟩
        exact absurd hs (by simp)
    | ok s =>
      cases s with
      | false =>
        constructor
        · intro h; exact absurd h (by simp)
        · rintro ⟨hs, _⟩
          exact absurd hs (by simp)
      | true =>
        by_cases hc : (0 : Int) < d ∧ cmd ≠ "get_service_status"
        · simp only [if_true, if_pos hc]
          rcases armStep_events st.ledger with h | h <;> simp [h, h2, hc]
        · simp only [if_true, if_neg hc]
          simp only [List.mem_cons, List.mem_singleton]
          constructor
          · intro h; exact absurd h (by simp)
          · rintro ⟨_, hd, hg⟩
            exact absurd ⟨hd, hg⟩ hc

lemma logCompleted_mem_post_iff (cmd : String) (d : Int) (ret : PyVal) (st : St) :
    Ev.logCompleted ∈ (post_command cmd d ret st).2 ↔
      success_of ret = Except.ok true := by
  unfold post_command
  cases h1 : sid_of ret with
  | error e =>
    constructor
    · intro h; exact absurd h (by simp)
    · intro hs
      exact absurd hs (success_ok_true_no_sid_error ret h1)
  | ok sid' =>
    cases h2 : success_of ret with
    | error e =>
      constructor
      · intro h; exact absurd h (by simp)
      · intro hs
        exact absurd hs (by simp)
    | ok s =>
      cases s with
      | false =>
        constructor
        · intro h; exact absurd h (by simp)
        · intro hs
          exact absurd hs (by simp)
      | true =>
        by_cases hc : (0 : Int) < d ∧ cmd ≠ "get_service_status"
        · simp only [if_true, if_pos hc]
          rcases armStep_events st.ledger with h | h <;> simp [h, h2]
        · simp only [if_true, if_neg hc]
          simp [h2]

lemma post_command_sid (cmd : String) (d : Int) (ret : PyVal) (st : St) :
    (post_command cmd d ret st).1.sid =
      (match sid_of ret with
       | Except.ok s' => s'
       | Except.error _ => st.sid) := by
  unfold post_command
  cases h1 : sid_of ret with
  | error e => simp
  | ok sid' =>
    cases h2 : success_of ret with
    | error e => simp
    | ok s =>
      cases s with
      | false => simp
      | true =>
        by_cases hc : (0 : Int) < d ∧ cmd ≠ "get_service_status"
        · simp only [if_true, if_pos hc]
        · simp only [if_true, if_neg hc]

lemma post_command_conn (cmd : String) (d : Int) (ret : PyVal) (st : St) :
    (post_command cmd d ret st).1.conn = st.conn := by
  unfold post_command
  cases h1 : sid_of ret with
  | error e => simp
  | ok sid' =>
    cases h2 : success_of ret with
    | error e => simp
    | ok s =>
      cases s with
      | false => simp
      | true =>
        by_cases hc : (0 : Int) < d ∧ cmd ≠ "get_service_status"
        · simp only [if_true, if_pos hc]
        · simp only [if_true, if_neg hc]

lemma post_command_ledger_or (cmd : String) (d : Int) (ret : PyVal) (st : St) :
    ((post_command cmd d ret st).1.ledger = st.ledger ∧
        Ev.armTimer ∉ (post_command cmd d ret st).2) ∨
      ((post_command cmd d ret st).1.ledger = (armStep st.ledger).1 ∧
        Ev.armTimer ∈ (post_command cmd d ret st).2) := by
  unfold post_command
  cases h1 : sid_of ret with
  | error e => left; exact ⟨rfl, by simp⟩
  | ok sid' =>
    cases h2 : success_of ret with
    | error e => left; exact ⟨rfl, by simp⟩
    | ok s =>
      cases s with
      | false => left; exact ⟨rfl, by simp⟩
      | true =>
        by_cases hc : (0 : Int) < d ∧ cmd ≠ "get_service_status"
        · right
          simp only [if_true, if_pos hc]
          refine ⟨by trivial, ?_⟩
          rcases armStep_events st.ledger with h | h <;> simp [h]
        · left
          simp only [if_true, if_neg hc]
          exact ⟨by trivial, by simp⟩


lemma command_branch_dynamic (env : Env) (recurse : St → Request → St × List Ev)
    (st : St) (idx : Nat) (jd : Request)
    (h1 : jd.command ≠ "set_log_level") (h2 : jd.command ≠ "init_ha_discovery")
    (h3 : jd.command ≠ "get_status") (h4 : jd.command ≠ "refresh_last_command_status") :
    command_branch env recurse st idx jd =
      ((post_command jd.command 60 (dynamic_branch env jd.command jd.kwargs).1 st).1,
        (dynamic_branch env jd.command jd.kwargs).2 ++
          (post_command jd.command 60 (dynamic_branch env jd.command jd.kwargs).1 st).2) := by
  simp only [command_branch, if_neg h1, if_neg h2, if_neg h3, if_neg h4]

lemma do_command_dynamic (env : Env) (fuel : Nat) (st : St) (jd : Request) (c : Session)
    (h1 : st.conn = some c) (h2 : ¬ c.expiration < env.now)
    (hm : env.multi_vehicle = false) (hcount : 0 < c.vehicle_count)
    (hc1 : jd.command ≠ "set_log_level") (hc2 : jd.command ≠ "init_ha_discovery")
    (hc3 : jd.command ≠ "get_status") (hc4 : jd.command ≠ "refresh_last_command_status") :
    do_command env (fuel + 1) st jd =
      ((post_command jd.command 60 (dynamic_branch env jd.command jd.kwargs).1 st).1,
        placeholderEv :: ((dynamic_branch env jd.command jd.kwargs).2 ++
          (post_command jd.command 60 (dynamic_branch env jd.command jd.kwargs).1 st).2)) := by
  have hres : resolve_vehicle_index env.multi_vehicle c.vehicle_count jd.vehicle_index
      = some 0 := by
    rw [hm]; rfl
  rw [do_command_branches env fuel st jd c 0 h1 h2 hres hcount,
    command_branch_dynamic env (do_command env fuel) st 0 jd hc1 hc2 hc3 hc4]

lemma dynamic_branch_mismatch (env : Env) (cmd : String)
    (kwargs0 : Option (List (String × PyVal))) (ps : List String)
    (hps : env.params_of cmd = some ps) (hfp : sortStr ps ≠ [])
    (hgp : sortStr ((inject_pin env.master_pin (sortStr ps) (kwargs0.getD [])).map Prod.fst)
      ≠ sortStr ps)
    (hkw : inject_pin env.master_pin (sortStr ps) (kwargs0.getD []) ≠ []) :
    dynamic_branch env cmd kwargs0 =
      (errStatusDict ("Error: " ++ valFailMsg cmd
        (sortStr ((inject_pin env.master_pin (sortStr ps) (kwargs0.getD [])).map Prod.fst))
        (sortStr ps)), []) := by
  have hgpne : sortStr ((inject_pin env.master_pin (sortStr ps) (kwargs0.getD [])).map
      Prod.fst) ≠ [] := by
    intro h
    rw [sortStr_eq_nil_iff] at h
    exact hkw (List.map_eq_nil_iff.mp h)
  simp only [dynamic_branch, hps]
  rw [if_pos ⟨hfp, hgpne⟩, if_neg hgp]

lemma dynamic_branch_nokwargs (env : Env) (cmd : String)
    (kwargs0 : Option (List (String × PyVal))) (ps : List String)
    (hps : env.params_of cmd = some ps) (hfp : sortStr ps ≠ [])
    (hkw : inject_pin env.master_pin (sortStr ps) (kwargs0.getD []) = []) :
    dynamic_branch env cmd kwargs0 =
      (errStatusDict ("Error: " ++ kwargsMissingMsg cmd (sortStr ps)), []) := by
  have hgp : sortStr ((inject_pin env.master_pin (sortStr ps) (kwargs0.getD [])).map
      Prod.fst) = [] := by
    rw [hkw]
    rfl
  simp only [dynamic_branch, hps]
  rw [if_neg (by
    rintro ⟨_, hne⟩
    exact hne hgp)]
  rw [if_pos ⟨hfp, by rw [hkw]; rfl⟩]

lemma dynamic_branch_invoke_events (env : Env) (cmd : String)
    (kwargs0 : Option (List (String × PyVal))) (ps : List String)
    (hps : env.params_of cmd = some ps)
    (h : sortStr ps = [] ∨
      sortStr ((inject_pin env.master_pin (sortStr ps) (kwargs0.getD [])).map Prod.fst)
        = sortStr ps) :
    (dynamic_branch env cmd kwargs0).2 =
      [Ev.remoteCall cmd (inject_pin env.master_pin (sortStr ps) (kwargs0.getD []))] := by
  simp only [dynamic_branch, hps]
  rcases h with h | h
  · rw [if_neg (by rintro ⟨hne, _⟩; exact hne h),
      if_neg (by rintro ⟨hne, _⟩; exact hne h)]
    cases hi : env.invoke cmd (inject_pin env.master_pin (sortStr ps) (kwargs0.getD [])) with
    | ok r => simp
    | error m => simp
  · by_cases hfp : sortStr ps = []
    · rw [if_neg (by rintro ⟨hne, _⟩; exact hne hfp),
        if_neg (by rintro ⟨hne, _⟩; exact hne hfp)]
      cases hi : env.invoke cmd (inject_pin env.master_pin (sortStr ps) (kwargs0.getD [])) with
      | ok r => simp
      | error m => simp
    · have hgpne : sortStr ((inject_pin env.master_pin (sortStr ps) (kwargs0.getD [])).map
          Prod.fst) ≠ [] := by
        rw [h]
        exact hfp
      rw [if_pos ⟨hfp, hgpne⟩, if_pos h]
      cases hi : env.invoke cmd (inject_pin env.master_pin (sortStr ps) (kwargs0.getD [])) with
      | ok r => simp
      | error m => simp

lemma dynamic_branch_remote_events (env : Env) (cmd : String)
    (kwargs0 : Option (List (String × PyVal))) (ps : List String)
    (hps : env.params_of cmd = some ps) :
    ∀ e ∈ (dynamic_branch env cmd kwargs0).2,
      e = Ev.remoteCall cmd (inject_pin env.master_pin (sortStr ps) (kwargs0.getD [])) := by
  intro e he
  simp only [dynamic_branch, hps] at he
  by_cases c1 : sortStr ps ≠ [] ∧
      sortStr ((inject_pin env.master_pin (sortStr ps) (kwargs0.getD [])).map Prod.fst) ≠ []
  · rw [if_pos c1] at he
    by_cases c2 : sortStr ((inject_pin env.master_pin (sortStr ps) (kwargs0.getD [])).map
        Prod.fst) = sortStr ps
    · rw [if_pos c2] at he
      cases hi : env.invoke cmd (inject_pin env.master_pin (sortStr ps) (kwargs0.getD [])) with
      | ok r => rw [hi] at he; simpa using he
      | error m => rw [hi] at he; simpa using he
    · rw [if_neg c2] at he
      simp at he
  · rw [if_neg c1] at he
    by_cases c3 : sortStr ps ≠ [] ∧
        (inject_pin env.master_pin (sortStr ps) (kwargs0.getD [])).map Prod.fst = []
    · rw [if_pos c3] at he
      simp at he
    · rw [if_neg c3] at he
      cases hi : env.invoke cmd (inject_pin env.master_pin (sortStr ps) (kwargs0.getD [])) with
      | ok r => rw [hi] at he; simpa using he
      | error m => rw [hi] at he; simpa using he


/-- C1 (corrected): the dispatcher validates the argument-name set only after
the master-PIN injection step, so an invocation can happen although the
names supplied in the request differ from the declared list: with a master
PIN configured, `honk_blink(pin, a)` called with only `a` supplied is
invoked (with the PIN injected), while the sorted supplied-name set differs
from the sorted declared set. -/
theorem C1_counterexample :
    (∃ ks, Ev.remoteCall "honk_blink" ks ∈ (do_command envPin 1 stW reqHonk).2) ∧
    sortStr ((reqHonk.kwargs.getD []).map Prod.fst) ≠ sortStr ["pin", "a"] ∧
    envPin.params_of "honk_blink" = some ["pin", "a"] := by
  refine ⟨⟨[("a", PyVal.int 1), ("pin", PyVal.str "1234")], ?_⟩, by decide, rfl⟩
  have htr : (do_command envPin 1 stW reqHonk).2 =
      [placeholderEv,
       Ev.remoteCall "honk_blink" [("a", PyVal.int 1), ("pin", PyVal.str "1234")],
       Ev.pubResponse (PyVal.dict [("status", PyVal.str "Started"),
         ("customerServiceId", PyVal.str "svc1")]),
       Ev.logCompleted, Ev.armTimer] := rfl
  rw [htr]
  simp

/-- C1 amended: for a dynamic remote command reached with a valid cached
session, writing `kw` for the keyword arguments after the master-PIN
injection step of C9: when the declared parameter list and `kw` are both
non-empty, the operation is invoked exactly when the sorted name list of
`kw` equals the sorted declared list, and on a mismatch no remote call is
issued and the published error result reports both sorted lists; when
parameters are declared but `kw` is empty, no remote call is issued and the
missing-kwargs error is published; when no parameters are declared, the
operation is always invoked; and equality of the sorted name lists is
exactly order-independent (permutation) equality of the name sets. -/
theorem do_command_param_validation (env : Env) (fuel : Nat) (st : St) (jd : Request)
    (c : Session) (ps : List String)
    (h1 : st.conn = some c) (h2 : ¬ c.expiration < env.now)
    (hm : env.multi_vehicle = false) (hcount : 0 < c.vehicle_count)
    (hc1 : jd.command ≠ "set_log_level") (hc2 : jd.command ≠ "init_ha_discovery")
    (hc3 : jd.command ≠ "get_status") (hc4 : jd.command ≠ "refresh_last_command_status")
    (hps : env.params_of jd.command = some ps) :
    (sortStr ps ≠ [] → inject_pin env.master_pin (sortStr ps) (jd.kwargs.getD []) ≠ [] →
      ((∃ ks, Ev.remoteCall jd.command ks ∈ (do_command env (fuel + 1) st jd).2) ↔
        sortStr ((inject_pin env.master_pin (sortStr ps) (jd.kwargs.getD [])).map Prod.fst)
          = sortStr ps)) ∧
    (sortStr ps ≠ [] → inject_pin env.master_pin (sortStr ps) (jd.kwargs.getD []) ≠ [] →
      sortStr ((inject_pin env.master_pin (sortStr ps) (jd.kwargs.getD [])).map Prod.fst)
        ≠ sortStr ps →
      Ev.pubResponse (errStatusDict ("Error: " ++ valFailMsg jd.command
        (sortStr ((inject_pin env.master_pin (sortStr ps) (jd.kwargs.getD [])).map Prod.fst))
        (sortStr ps))) ∈ (do_command env (fuel + 1) st jd).2) ∧
    (sortStr ps ≠ [] → inject_pin env.master_pin (sortStr ps) (jd.kwargs.getD []) = [] →
      (∀ ks, Ev.remoteCall jd.command ks ∉ (do_command env (fuel + 1) st jd).2) ∧
      Ev.pubResponse (errStatusDict ("Error: " ++ kwargsMissingMsg jd.command (sortStr ps)))
        ∈ (do_command env (fuel + 1) st jd).2) ∧
    (sortStr ps = [] →
      Ev.remoteCall jd.command (inject_pin env.master_pin (sortStr ps) (jd.kwargs.getD []))
        ∈ (do_command env (fuel + 1) st jd).2) ∧
    (∀ kw2 : List (String × PyVal),
      sortStr (kw2.map Prod.fst) = sortStr ps ↔ (kw2.map Prod.fst).Perm ps) := by
  have hd := do_command_dynamic env fuel st jd c h1 h2 hm hcount hc1 hc2 hc3 hc4
  refine ⟨?_, ?_, ?_, ?_, fun kw2 => sortStr_eq_iff_perm (kw2.map Prod.fst) ps⟩
  · intro hfp hkw
    constructor
    · rintro ⟨ks, hmem⟩
      by_contra hgp
      have hdb := dynamic_branch_mismatch env jd.command jd.kwargs ps hps hfp hgp hkw
      rw [hd, hdb] at hmem
      rcases List.mem_cons.mp hmem with hx | hx
      · exact absurd hx (by simp [placeholderEv])
      · simp only [List.nil_append] at hx
        exact remoteCall_not_mem_post jd.command 60 _ st jd.command ks hx
    · intro hgp
      have hdb := dynamic_branch_invoke_events env jd.command jd.kwargs ps hps (Or.inr hgp)
      refine ⟨inject_pin env.master_pin (sortStr ps) (jd.kwargs.getD []), ?_⟩
      rw [hd]
      rw [List.mem_cons]
      right
      rw [List.mem_append, hdb]
      left
      simp
  · intro hfp hkw hgp
    have hdb := dynamic_branch_mismatch env jd.command jd.kwargs ps hps hfp hgp hkw
    rw [hd, hdb]
    rw [List.mem_cons]
    right
    rw [List.mem_append]
    right
    have := pubResponse_mem_post jd.command 60 (errStatusDict ("Error: " ++
      valFailMsg jd.command
      (sortStr ((inject_pin env.master_pin (sortStr ps) (jd.kwargs.getD [])).map Prod.fst))
      (sortStr ps))) st
    simpa [hdb] using this
  · intro hfp hkw
    have hdb := dynamic_branch_nokwargs env jd.command jd.kwargs ps hps hfp hkw
    constructor
    · intro ks hmem
      rw [hd, hdb] at hmem
      rcases List.mem_cons.mp hmem with hx | hx
      · exact absurd hx (by simp [placeholderEv])
      · simp only [List.nil_append] at hx
        exact remoteCall_not_mem_post jd.command 60 _ st jd.command ks hx
    · rw [hd, hdb]
      rw [List.mem_cons]
      right
      rw [List.mem_append]
      right
      have := pubResponse_mem_post jd.command 60 (errStatusDict ("Error: " ++
        kwargsMissingMsg jd.command (sortStr ps))) st
      simpa [hdb] using this
  · intro hfp
    have hdb := dynamic_branch_invoke_events env jd.command jd.kwargs ps hps (Or.inl hfp)
    rw [hd]
    rw [List.mem_cons]
    right
    rw [List.mem_append, hdb]
    left
    simp

/-- Witness for the amended C1 theorem: with no master PIN configured,
`lock(pin)` called with a matching `pin` argument is invoked. -/
theorem do_command_param_validation_witness :
    ∃ ks, Ev.remoteCall "lock" ks ∈ (do_command envW 1 stW reqLock).2 :=
  ((do_command_param_validation envW 0 stW reqLock sessionW ["pin"] rfl (by decide) rfl
    (by decide) (by decide) (by decide) (by decide) (by decide) rfl).1
    (by decide) (List.cons_ne_nil _ _)).mpr rfl


/-- C9 (confirmed): when a `pin` parameter is declared, a master PIN is
configured and no `pin` argument was supplied, `do_command` adds the master
PIN to the keyword arguments before validation and invocation; in every
other case the keyword arguments are left unchanged; and whatever reaches a
remote invocation is exactly the post-injection argument list. -/
theorem pin_injection :
    (∀ (mp : Option String) (fp : List String) (kw : List (String × PyVal)),
      fp.contains "pin" = true → pinTruthy mp = true →
      kw.any (fun kv => kv.1 == "pin") = false →
      inject_pin mp fp kw = kw ++ [("pin", PyVal.str (mp.getD ""))]) ∧
    (∀ (mp : Option String) (fp : List String) (kw : List (String × PyVal)),
      fp.contains "pin" = false ∨ pinTruthy mp = false ∨
        kw.any (fun kv => kv.1 == "pin") = true →
      inject_pin mp fp kw = kw) ∧
    (∀ (env : Env) (fuel : Nat) (st : St) (jd : Request) (c : Session) (ps : List String),
      st.conn = some c → ¬ c.expiration < env.now → env.multi_vehicle = false →
      0 < c.vehicle_count →
      jd.command ≠ "set_log_level" → jd.command ≠ "init_ha_discovery" →
      jd.command ≠ "get_status" → jd.command ≠ "refresh_last_command_status" →
      env.params_of jd.command = some ps →
      ∀ ks, Ev.remoteCall jd.command ks ∈ (do_command env (fuel + 1) st jd).2 →
        ks = inject_pin env.master_pin (sortStr ps) (jd.kwargs.getD [])) := by
  refine ⟨?_, ?_, ?_⟩
  · intro mp fp kw hc hp hk
    have hcond : (fp.contains "pin" && pinTruthy mp
        && !(kw.any (fun kv => kv.1 == "pin"))) = true := by
      rw [hc, hp, hk]
      rfl
    simp only [inject_pin, hcond, if_true]
  · intro mp fp kw h
    have hcond : (fp.contains "pin" && pinTruthy mp
        && !(kw.any (fun kv => kv.1 == "pin"))) = false := by
      rcases h with h | h | h
      · rw [h]
        rfl
      · rw [h]
        simp only [Bool.and_false, Bool.false_and]
      · rw [h]
        simp only [Bool.not_true, Bool.and_false]
    simp only [inject_pin, hcond, Bool.false_eq_true, if_false]
  · intro env fuel st jd c ps h1 h2 hm hcount hc1 hc2 hc3 hc4 hps ks hmem
    have hd := do_command_dynamic env fuel st jd c h1 h2 hm hcount hc1 hc2 hc3 hc4
    rw [hd] at hmem
    rcases List.mem_cons.mp hmem with hx | hx
    · exact absurd hx (by simp [placeholderEv])
    · rcases List.mem_append.mp hx with hy | hy
      · have he := dynamic_branch_remote_events env jd.command jd.kwargs ps hps _ hy
        exact (Ev.remoteCall.inj he).2
      · exact absurd hy (remoteCall_not_mem_post jd.command 60 _ st jd.command ks)

/-- Witness for the C9 theorem at concrete inputs. -/
theorem pin_injection_witness :
    inject_pin (some "1234") ["pin"] [] = [("pin", PyVal.str "1234")] ∧
    inject_pin Option.none ["pin"] [("pin", PyVal.str "9999")]
      = [("pin", PyVal.str "9999")] ∧
    [("a", PyVal.int 1), ("pin", PyVal.str "1234")] =
      inject_pin envPin.master_pin (sortStr ["pin", "a"]) (reqHonk.kwargs.getD []) := by
  refine ⟨pin_injection.1 (some "1234") ["pin"] [] rfl rfl rfl,
    pin_injection.2.1 Option.none ["pin"] [("pin", PyVal.str "9999")]
      (Or.inr (Or.inl rfl)), ?_⟩
  refine pin_injection.2.2 envPin 0 stW reqHonk sessionW ["pin", "a"] rfl (by decide) rfl
    (by decide) (by decide) (by decide) (by decide) (by decide) rfl
    [("a", PyVal.int 1), ("pin", PyVal.str "1234")] ?_
  have htr : (do_command envPin 1 stW reqHonk).2 =
      [placeholderEv,
       Ev.remoteCall "honk_blink" [("a", PyVal.int 1), ("pin", PyVal.str "1234")],
       Ev.pubResponse (PyVal.dict [("status", PyVal.str "Started"),
         ("customerServiceId", PyVal.str "svc1")]),
       Ev.logCompleted, Ev.armTimer] := rfl
  rw [htr]
  simp [reqHonk]


/-- C6 (corrected): with no cached service id, `refresh_last_command_status`
is not a silent no-op: the dispatch falls through the generic result path
with `ret` still `None`, publishing a response beyond the initial
placeholder clear. -/
theorem C6_counterexample :
    (do_command envW 1 stW reqRefresh).2 = [placeholderEv, Ev.pubResponse PyVal.none] ∧
    (do_command envW 1 stW reqRefresh).2 ≠ [placeholderEv] := by
  have h1 : (do_command envW 1 stW reqRefresh).2
      = [placeholderEv, Ev.pubResponse PyVal.none] := rfl
  refine ⟨h1, ?_⟩
  rw [h1]
  simp

/-- C6 amended: when a last service id is cached (and truthy),
`refresh_last_command_status` re-invokes dispatch recursively as a synthetic
`get_service_status` command carrying that id and returns immediately; when
no id is cached it performs no remote call and no recursion, but falls
through the generic result path, publishing a `None` response (and a failure
warning) after the placeholder clear. -/
theorem refresh_last_command_amended :
    (∀ (env : Env) (fuel : Nat) (st : St) (jd : Request) (c : Session),
      st.conn = some c → ¬ c.expiration < env.now →
      env.multi_vehicle = false → 0 < c.vehicle_count →
      jd.command = "refresh_last_command_status" → st.sid = Option.none →
      do_command env (fuel + 1) st jd =
        ({ st with sid := Option.none }, [placeholderEv, Ev.pubResponse PyVal.none])) ∧
    (∀ (env : Env) (fuel : Nat) (st : St) (jd : Request) (c : Session) (sv : PyVal),
      st.conn = some c → ¬ c.expiration < env.now →
      env.multi_vehicle = false → 0 < c.vehicle_count →
      jd.command = "refresh_last_command_status" → st.sid = some sv →
      truthy sv = true →
      do_command env (fuel + 1) st jd =
        ((do_command env fuel st
            { command := "get_service_status", vehicle_index := some (Int.ofNat 0),
              key := Option.none, kwargs := some [("service_id", sv)],
              level := Option.none }).1,
          placeholderEv :: (do_command env fuel st
            { command := "get_service_status", vehicle_index := some (Int.ofNat 0),
              key := Option.none, kwargs := some [("service_id", sv)],
              level := Option.none }).2)) := by
  have hne1 : ("refresh_last_command_status" : String) ≠ "set_log_level" := by decide
  have hne2 : ("refresh_last_command_status" : String) ≠ "init_ha_discovery" := by decide
  have hne3 : ("refresh_last_command_status" : String) ≠ "get_status" := by decide
  constructor
  · intro env fuel st jd c h1 h2 hm hcount hcmd hside
    have hres : resolve_vehicle_index env.multi_vehicle c.vehicle_count jd.vehicle_index
        = some 0 := by
      rw [hm]; rfl
    rw [do_command_branches env fuel st jd c 0 h1 h2 hres hcount]
    simp only [command_branch, hcmd, hside, if_neg hne1, if_neg hne2, if_neg hne3,
      if_pos rfl]
    rfl
  · intro env fuel st jd c sv h1 h2 hm hcount hcmd hside htr
    have hres : resolve_vehicle_index env.multi_vehicle c.vehicle_count jd.vehicle_index
        = some 0 := by
      rw [hm]; rfl
    rw [do_command_branches env fuel st jd c 0 h1 h2 hres hcount]
    simp only [command_branch, hcmd, hside, htr, if_neg hne1, if_neg hne2, if_neg hne3,
      if_pos rfl, if_true]

/-- Witness for the amended C6 theorem at concrete inputs. -/
theorem refresh_last_command_amended_witness :
    do_command envW 1 stW reqRefresh =
      ({ stW with sid := Option.none }, [placeholderEv, Ev.pubResponse PyVal.none]) ∧
    do_command envW 1 { stW with sid := some (PyVal.str "svc1") } reqRefresh =
      ((do_command envW 0 { stW with sid := some (PyVal.str "svc1") }
          { command := "get_service_status", vehicle_index := some (Int.ofNat 0),
            key := Option.none, kwargs := some [("service_id", PyVal.str "svc1")],
            level := Option.none }).1,
        placeholderEv :: (do_command envW 0 { stW with sid := some (PyVal.str "svc1") }
          { command := "get_service_status", vehicle_index := some (Int.ofNat 0),
            key := Option.none, kwargs := some [("service_id", PyVal.str "svc1")],
            level := Option.none }).2) :=
  ⟨refresh_last_command_amended.1 envW 0 stW reqRefresh sessionW rfl (by decide) rfl
      (by decide) rfl rfl,
   refresh_last_command_amended.2 envW 0 { stW with sid := some (PyVal.str "svc1") }
      reqRefresh sessionW (PyVal.str "svc1") rfl (by decide) rfl (by decide) rfl rfl rfl⟩

/-- C10 (corrected): the claim's biconditional fails as stated: a
`get_service_status` result with a clean status is logged as completed but
never arms the refresh timer, although it is a mapping whose `status`
contains no `Error` substring. -/
theorem C10_counterexample :
    claimC10_success (PyVal.dict [("status", PyVal.str "Completed")]) = true ∧
    Ev.logCompleted ∈ (post_command "get_service_status" 60
      (PyVal.dict [("status", PyVal.str "Completed")]) stW).2 ∧
    Ev.armTimer ∉ (post_command "get_service_status" 60
      (PyVal.dict [("status", PyVal.str "Completed")]) stW).2 := by
  have htr : (post_command "get_service_status" 60
      (PyVal.dict [("status", PyVal.str "Completed")]) stW).2 =
      [Ev.pubResponse (PyVal.dict [("status", PyVal.str "Completed")]),
        Ev.logCompleted] := rfl
  refine ⟨rfl, ?_, ?_⟩
  · rw [htr]; simp
  · rw [htr]; simp

/-- C10 amended: the dispatcher decides success by the Python containment
chain of source line 607: a result is logged as completed exactly when it is
a truthy mapping with a `status` entry on which the test `"Error" in value`
is defined and false; the timer is armed exactly when additionally the
refresh delay is positive and the command is not `get_service_status`; the
cached service id is set from a truthy `customerServiceId` entry of a
mapping result, cleared when the chain yields nothing, and left unchanged
when the chain raises, as it does on a bare string result that contains
`customerServiceId` as a substring. -/
theorem do_command_success_test_amended :
    (∀ (cmd : String) (d : Int) (ret : PyVal) (st : St),
      Ev.logCompleted ∈ (post_command cmd d ret st).2 ↔
        success_of ret = Except.ok true) ∧
    (∀ (cmd : String) (d : Int) (ret : PyVal) (st : St),
      Ev.armTimer ∈ (post_command cmd d ret st).2 ↔
        (success_of ret = Except.ok true ∧ 0 < d ∧ cmd ≠ "get_service_status")) ∧
    (∀ ret : PyVal,
      success_of ret = Except.ok true ↔
        ∃ fs v, ret = PyVal.dict fs ∧ fs.lookup "status" = some v ∧
          py_in "Error" v = Except.ok false) ∧
    (∀ (cmd : String) (d : Int) (ret : PyVal) (st : St),
      (post_command cmd d ret st).1.sid =
        (match sid_of ret with
         | Except.ok s' => s'
         | Except.error _ => st.sid)) ∧
    (∀ (ret v : PyVal),
      sid_of ret = Except.ok (some v) ↔
        ∃ fs, ret = PyVal.dict fs ∧ fs.lookup "customerServiceId" = some v ∧
          truthy v = true) ∧
    (∀ s : String, s ≠ "" → strContains s "customerServiceId" = true →
      sid_of (PyVal.str s) = Except.error ()) :=
  ⟨logCompleted_mem_post_iff, armTimer_mem_post_iff, success_of_ok_true_iff,
   post_command_sid, sid_of_ok_some_iff, by
    intro s hne hsub
    have hb : (s != "") = true := by simpa using hne
    simp [sid_of, truthy, hb, py_in, hsub, py_get]⟩

/-- Witness for the amended C10 theorem at concrete inputs. -/
theorem do_command_success_test_amended_witness :
    "xcustomerServiceIdy" ≠ "" ∧
    strContains "xcustomerServiceIdy" "customerServiceId" = true ∧
    sid_of (PyVal.str "xcustomerServiceIdy") = Except.error () :=
  ⟨by decide, rfl,
   do_command_success_test_amended.2.2.2.2.2 "xcustomerServiceIdy" (by decide) rfl⟩


lemma aliveT_mk_iff (n : Nat) (d : List Nat) (tk : Option Nat) (i : Nat) :
    aliveT { created := n, dead := d, tracked := tk } i = true ↔ (i < n ∧ i ∉ d) := by
  simp [aliveT, List.elem_iff]

lemma TimerInv_mk (n : Nat) (d : List Nat) (tk : Option Nat) :
    TimerInv { created := n, dead := d, tracked := tk } ↔
      ((∀ i, aliveT { created := n, dead := d, tracked := tk } i = true → tk = some i) ∧
        (∀ i ∈ d, i < n)) :=
  Iff.rfl

lemma length_filter_le_one {p : Nat → Bool} {n t : Nat}
    (h : ∀ i, p i = true → i = t) :
    ((List.range n).filter (fun i => p i)).length ≤ 1 := by
  have hnd : ((List.range n).filter (fun i => p i)).Nodup :=
    (List.nodup_range (n := n)).filter _
  cases hfl : (List.range n).filter (fun i => p i) with
  | nil => simp
  | cons a tail =>
    cases tail with
    | nil => simp
    | cons b tb =>
      exfalso
      have ha : p a = true := by
        have hmem : a ∈ (List.range n).filter (fun i => p i) := by
          rw [hfl]; simp
        exact (List.mem_filter.mp hmem).2
      have hb : p b = true := by
        have hmem : b ∈ (List.range n).filter (fun i => p i) := by
          rw [hfl]; simp
        exact (List.mem_filter.mp hmem).2
      have hnd2 : (a :: b :: tb).Nodup := hfl ▸ hnd
      rw [h a ha, h b hb] at hnd2
      simp [List.nodup_cons] at hnd2

lemma timerInv_pendingCount_le_one (L : Ledger) (h : TimerInv L) :
    pendingCount L ≤ 1 := by
  cases ht : L.tracked with
  | none =>
    unfold pendingCount
    refine length_filter_le_one (t := 0) ?_
    intro i hi
    have := h.1 i hi
    rw [ht] at this
    exact Option.noConfusion this
  | some t =>
    unfold pendingCount
    refine length_filter_le_one (t := t) ?_
    intro i hi
    have := h.1 i hi
    rw [ht] at this
    exact (Option.some.inj this).symm

lemma pendingCount_eq_one_of (L : Ledger) (t : Nat) (ht : t < L.created)
    (hiff : ∀ i, aliveT L i = true ↔ i = t) : pendingCount L = 1 := by
  unfold pendingCount
  refine Nat.le_antisymm ?_ ?_
  · exact length_filter_le_one (fun i hi => (hiff i).mp hi)
  · have hmem : t ∈ (List.range L.created).filter (fun i => aliveT L i) :=
      List.mem_filter.mpr ⟨List.mem_range.mpr ht, (hiff t).mpr rfl⟩
    have := List.length_pos_of_mem hmem
    omega

lemma armStep_fst_none (L : Ledger) (htk : L.tracked = Option.none) :
    (armStep L).1 =
      { created := L.created + 1, dead := L.dead, tracked := some L.created } := by
  unfold armStep
  rw [htk]

lemma armStep_fst_alive (L : Ledger) (t : Nat) (htk : L.tracked = some t)
    (hal : aliveT L t = true) :
    (armStep L).1 =
      { created := L.created + 1, dead := t :: L.dead, tracked := some L.created } := by
  unfold armStep
  rw [htk]
  simp [hal]

lemma armStep_fst_dead (L : Ledger) (t : Nat) (htk : L.tracked = some t)
    (hal : aliveT L t = false) :
    (armStep L).1 =
      { created := L.created + 1, dead := L.dead, tracked := some L.created } := by
  unfold armStep
  rw [htk]
  simp [hal]

lemma armStep_inv (L : Ledger) (h : TimerInv L) :
    TimerInv (armStep L).1 ∧ pendingCount (armStep L).1 = 1 ∧
      (∀ i, aliveT L i = true → aliveT (armStep L).1 i = false) := by
  obtain ⟨hinv, hdead⟩ := h
  cases htk : L.tracked with
  | none =>
    rw [armStep_fst_none L htk]
    have hiff : ∀ i,
        aliveT ({ created := L.created + 1, dead := L.dead, tracked := some L.created } : Ledger) i = true ↔
          i = L.created := by
      intro i
      rw [aliveT_mk_iff]
      constructor
      · rintro ⟨hlt, hnd⟩
        by_contra hne
        have hlt2 : i < L.created := by
          rcases Nat.lt_succ_iff_lt_or_eq.mp hlt with hx | hx
          · exact hx
          · exact absurd hx hne
        have hi : aliveT L i = true := by
          cases L
          exact (aliveT_mk_iff _ _ _ _).mpr ⟨hlt2, hnd⟩
        have hc := hinv i hi
        rw [htk] at hc
        exact Option.noConfusion hc
      · rintro rfl
        refine ⟨Nat.lt_succ_self _, fun hmem => ?_⟩
        exact absurd (hdead _ hmem) (by omega)
    refine ⟨(TimerInv_mk _ _ _).mpr ⟨?_, ?_⟩, ?_, ?_⟩
    · intro i hi
      rw [hiff i] at hi
      subst hi
      rfl
    · intro i hi
      exact Nat.lt_succ_of_lt (hdead i hi)
    · exact pendingCount_eq_one_of _ L.created (Nat.lt_succ_self _) hiff
    · intro i hi
      have hc := hinv i hi
      rw [htk] at hc
      exact Option.noConfusion hc
  | some t =>
    cases hal : aliveT L t with
    | true =>
      rw [armStep_fst_alive L t htk hal]
      have htlt : t < L.created := by
        rcases L with ⟨n, d, tk⟩
        exact ((aliveT_mk_iff _ _ _ _).mp hal).1
      have hiff : ∀ i,
          aliveT ({ created := L.created + 1, dead := t :: L.dead, tracked := some L.created } : Ledger) i = true ↔
            i = L.created := by
        intro i
        rw [aliveT_mk_iff]
        simp only [List.mem_cons, not_or]
        constructor
        · rintro ⟨hlt, hne_t, hnd⟩
          by_contra hne
          have hlt2 : i < L.created := by
            rcases Nat.lt_succ_iff_lt_or_eq.mp hlt with hx | hx
            · exact hx
            · exact absurd hx hne
          have hi : aliveT L i = true := by
            cases L
            exact (aliveT_mk_iff _ _ _ _).mpr ⟨hlt2, hnd⟩
          have hc := hinv i hi
          rw [htk] at hc
          exact hne_t (Option.some.inj hc).symm
        · rintro rfl
          refine ⟨Nat.lt_succ_self _, ?_, fun hmem => ?_⟩
          · omega
          · exact absurd (hdead _ hmem) (by omega)
      refine ⟨(TimerInv_mk _ _ _).mpr ⟨?_, ?_⟩, ?_, ?_⟩
      · intro i hi
        rw [hiff i] at hi
        subst hi
        rfl
      · intro i hi
        rcases List.mem_cons.mp hi with rfl | hi
        · omega
        · exact Nat.lt_succ_of_lt (hdead i hi)
      · exact pendingCount_eq_one_of _ L.created (Nat.lt_succ_self _) hiff
      · intro i hi
        have hc := hinv i hi
        rw [htk] at hc
        have hit : t = i := Option.some.inj hc
        subst hit
        cases hres :
            aliveT ({ created := L.created + 1, dead := t :: L.dead, tracked := some L.created } : Ledger) t with
        | false => rfl
        | true =>
          exfalso
          have := (aliveT_mk_iff _ _ _ _).mp hres
          exact this.2 (List.mem_cons_self t L.dead)
    | false =>
      rw [armStep_fst_dead L t htk hal]
      have hiff : ∀ i,
          aliveT ({ created := L.created + 1, dead := L.dead, tracked := some L.created } : Ledger) i = true ↔
            i = L.created := by
        intro i
        rw [aliveT_mk_iff]
        constructor
        · rintro ⟨hlt, hnd⟩
          by_contra hne
          have hlt2 : i < L.created := by
            rcases Nat.lt_succ_iff_lt_or_eq.mp hlt with hx | hx
            · exact hx
            · exact absurd hx hne
          have hi : aliveT L i = true := by
            cases L
            exact (aliveT_mk_iff _ _ _ _).mpr ⟨hlt2, hnd⟩
          have hc := hinv i hi
          rw [htk] at hc
          have hit : t = i := Option.some.inj hc
          subst hit
          rw [hal] at hi
          exact Bool.false_ne_true hi
        · rintro rfl
          refine ⟨Nat.lt_succ_self _, fun hmem => ?_⟩
          exact absurd (hdead _ hmem) (by omega)
      refine ⟨(TimerInv_mk _ _ _).mpr ⟨?_, ?_⟩, ?_, ?_⟩
      · intro i hi
        rw [hiff i] at hi
        subst hi
        rfl
      · intro i hi
        exact Nat.lt_succ_of_lt (hdead i hi)
      · exact pendingCount_eq_one_of _ L.created (Nat.lt_succ_self _) hiff
      · intro i hi
        have hc := hinv i hi
        rw [htk] at hc
        have hit : t = i := Option.some.inj hc
        subst hit
        rw [hal] at hi
        exact absurd hi Bool.false_ne_true

lemma fireTimer_inv (L : Ledger) (i : Nat) (h : TimerInv L) :
    TimerInv (fireTimer L i) := by
  obtain ⟨hinv, hdead⟩ := h
  unfold fireTimer
  cases hal : aliveT L i with
  | false => exact ⟨hinv, hdead⟩
  | true =>
    have hlt : i < L.created := by
      rcases L with ⟨n, d, tk⟩
      exact ((aliveT_mk_iff _ _ _ _).mp hal).1
    rcases L with ⟨n, d, tk⟩
    refine (TimerInv_mk _ _ _).mpr ⟨?_, ?_⟩
    · intro j hj
      have hj2 := (aliveT_mk_iff _ _ _ _).mp hj
      exact hinv j ((aliveT_mk_iff _ _ _ _).mpr
        ⟨hj2.1, fun hm => hj2.2 (List.mem_cons_of_mem _ hm)⟩)
    · intro j hj
      rcases List.mem_cons.mp hj with rfl | hj
      · exact hlt
      · exact hdead j hj


lemma armTimer_not_mem_dynamic (env : Env) (cmd : String)
    (kwargs0 : Option (List (String × PyVal))) :
    Ev.armTimer ∉ (dynamic_branch env cmd kwargs0).2 := by
  intro h
  cases hps : env.params_of cmd with
  | none =>
    simp only [dynamic_branch, hps] at h
    simp at h
  | some ps =>
    exact absurd (dynamic_branch_remote_events env cmd kwargs0 ps hps _ h) (by simp)

lemma do_command_raised (env : Env) (fuel : Nat) (st : St) (jd : Request)
    (conn' : Option Session)
    (hg : get_jlr_connection st.conn env.now env.construct = (conn', ConnOutcome.raised)) :
    do_command env (fuel + 1) st jd = ({ st with conn := conn' }, [placeholderEv]) := by
  simp only [do_command, hg]

lemma do_command_unavail (env : Env) (fuel : Nat) (st : St) (jd : Request)
    (s : Option Session)
    (hg : get_jlr_connection st.conn env.now env.construct
      = (Option.none, ConnOutcome.ok s)) :
    do_command env (fuel + 1) st jd =
      ({ st with conn := Option.none },
        [placeholderEv, Ev.pubResponse (errStatusDict ("Error: '" ++ jd.command ++
          "' command failed as connection to JLR is unavailable"))]) := by
  simp only [do_command, hg]

lemma do_command_resolve_none (env : Env) (fuel : Nat) (st : St) (jd : Request)
    (conn : Session) (s : Option Session)
    (hg : get_jlr_connection st.conn env.now env.construct
      = (some conn, ConnOutcome.ok s))
    (hres : resolve_vehicle_index env.multi_vehicle conn.vehicle_count jd.vehicle_index
      = Option.none) :
    do_command env (fuel + 1) st jd =
      ({ st with conn := some conn },
        [placeholderEv, Ev.pubResponse (errStatusDict ("Error: command '" ++ jd.command ++
          "' failed as vehicle index " ++ fmtOptInt jd.vehicle_index ++ " is invalid"))]) := by
  simp only [do_command, hg, hres]

lemma do_command_indexerror (env : Env) (fuel : Nat) (st : St) (jd : Request)
    (conn : Session) (s : Option Session) (idx : Nat)
    (hg : get_jlr_connection st.conn env.now env.construct
      = (some conn, ConnOutcome.ok s))
    (hres : resolve_vehicle_index env.multi_vehicle conn.vehicle_count jd.vehicle_index
      = some idx)
    (hle : conn.vehicle_count ≤ idx) :
    do_command env (fuel + 1) st jd = ({ st with conn := some conn }, [placeholderEv]) := by
  simp only [do_command, hg, hres]
  rw [if_pos hle]

lemma do_command_cb (env : Env) (fuel : Nat) (st : St) (jd : Request)
    (conn : Session) (s : Option Session) (idx : Nat)
    (hg : get_jlr_connection st.conn env.now env.construct
      = (some conn, ConnOutcome.ok s))
    (hres : resolve_vehicle_index env.multi_vehicle conn.vehicle_count jd.vehicle_index
      = some idx)
    (hle : ¬ conn.vehicle_count ≤ idx) :
    do_command env (fuel + 1) st jd =
      ((command_branch env (do_command env fuel) { st with conn := some conn } idx jd).1,
        placeholderEv ::
          (command_branch env (do_command env fuel) { st with conn := some conn } idx jd).2) := by
  simp only [do_command, hg, hres]
  rw [if_neg hle]

lemma command_branch_ledger_or (env : Env) (recurse : St → Request → St × List Ev)
    (st : St) (idx : Nat) (jd : Request)
    (hrec : ∀ st2 jd2,
      (((recurse st2 jd2).1.ledger = st2.ledger) ∧ Ev.armTimer ∉ (recurse st2 jd2).2) ∨
      (((recurse st2 jd2).1.ledger = (armStep st2.ledger).1) ∧
        Ev.armTimer ∈ (recurse st2 jd2).2)) :
    (((command_branch env recurse st idx jd).1.ledger = st.ledger) ∧
        Ev.armTimer ∉ (command_branch env recurse st idx jd).2) ∨
    (((command_branch env recurse st idx jd).1.ledger = (armStep st.ledger).1) ∧
        Ev.armTimer ∈ (command_branch env recurse st idx jd).2) := by
  unfold command_branch
  by_cases e1 : jd.command = "set_log_level"
  · rw [if_pos e1]
    cases hlv : jd.level with
    | some lv =>
      cases hv : env.valid_log_level lv with
      | true =>
        simp only [hv, eq_self_iff_true, if_true]
        exact post_command_ledger_or _ _ _ _
      | false =>
        simp only [hv, Bool.false_eq_true, if_false]
        left
        exact ⟨by trivial, by simp⟩
    | none => exact post_command_ledger_or _ _ _ _
  · rw [if_neg e1]
    by_cases e2 : jd.command = "init_ha_discovery"
    · rw [if_pos e2]
      exact post_command_ledger_or _ _ _ _
    · rw [if_neg e2]
      by_cases e3 : jd.command = "get_status"
      · rw [if_pos e3]
        exact post_command_ledger_or _ _ _ _
      · rw [if_neg e3]
        by_cases e4 : jd.command = "refresh_last_command_status"
        · rw [if_pos e4]
          cases hside : st.sid with
          | some sv =>
            cases htr : truthy sv with
            | true =>
              simp only [hside, htr, eq_self_iff_true, if_true]
              exact hrec st _
            | false =>
              simp only [hside, htr, Bool.false_eq_true, if_false]
              exact post_command_ledger_or _ _ _ _
          | none =>
            simp only [hside]
            exact post_command_ledger_or _ _ _ _
        · rw [if_neg e4]
          rcases post_command_ledger_or jd.command 60
              (dynamic_branch env jd.command jd.kwargs).1 st with ⟨hL, hA⟩ | ⟨hL, hA⟩
          · left
            refine ⟨hL, ?_⟩
            intro hmem
            rcases List.mem_append.mp hmem with hx | hx
            · exact armTimer_not_mem_dynamic env jd.command jd.kwargs hx
            · exact hA hx
          · right
            exact ⟨hL, List.mem_append.mpr (Or.inr hA)⟩

lemma do_command_ledger_or (env : Env) :
    ∀ (fuel : Nat) (st : St) (jd : Request),
      (((do_command env fuel st jd).1.ledger = st.ledger) ∧
        Ev.armTimer ∉ (do_command env fuel st jd).2) ∨
      (((do_command env fuel st jd).1.ledger = (armStep st.ledger).1) ∧
        Ev.armTimer ∈ (do_command env fuel st jd).2) := by
  intro fuel
  induction fuel with
  | zero =>
    intro st jd
    left
    exact ⟨rfl, by simp [do_command]⟩
  | succ fuel ih =>
    intro st jd
    rcases hg : get_jlr_connection st.conn env.now env.construct with ⟨conn', out⟩
    cases out with
    | raised =>
      rw [do_command_raised env fuel st jd conn' hg]
      left
      exact ⟨rfl, by simp [placeholderEv]⟩
    | ok s =>
      cases conn' with
      | none =>
        rw [do_command_unavail env fuel st jd s hg]
        left
        exact ⟨rfl, by simp [placeholderEv]⟩
      | some conn =>
        cases hres : resolve_vehicle_index env.multi_vehicle conn.vehicle_count
            jd.vehicle_index with
        | none =>
          rw [do_command_resolve_none env fuel st jd conn s hg hres]
          left
          exact ⟨rfl, by simp [placeholderEv]⟩
        | some idx =>
          by_cases hle : conn.vehicle_count ≤ idx
          · rw [do_command_indexerror env fuel st jd conn s idx hg hres hle]
            left
            exact ⟨rfl, by simp [placeholderEv]⟩
          · rw [do_command_cb env fuel st jd conn s idx hg hres hle]
            rcases command_branch_ledger_or env (do_command env fuel)
                { st with conn := some conn } idx jd (fun st2 jd2 => ih st2 jd2)
              with ⟨hL, hA⟩ | ⟨hL, hA⟩
            · left
              refine ⟨hL, ?_⟩
              intro hmem
              rcases List.mem_cons.mp hmem with hx | hx
              · exact absurd hx (by simp [placeholderEv])
              · exact hA hx
            · right
              exact ⟨hL, List.mem_cons_of_mem _ hA⟩

lemma command_branch_arm (env : Env) (recurse : St → Request → St × List Ev)
    (st : St) (idx : Nat) (jd : Request)
    (hrec : ∀ st2 jd2, Ev.armTimer ∈ (recurse st2 jd2).2 →
      jd2.command ≠ "get_service_status") :
    Ev.armTimer ∈ (command_branch env recurse st idx jd).2 →
      jd.command ≠ "set_log_level" ∧ jd.command ≠ "init_ha_discovery" ∧
      jd.command ≠ "get_status" ∧ jd.command ≠ "refresh_last_command_status" ∧
      jd.command ≠ "get_service_status" ∧
      success_of (dynamic_branch env jd.command jd.kwargs).1 = Except.ok true ∧
      Ev.pubResponse (dynamic_branch env jd.command jd.kwargs).1 ∈
        (command_branch env recurse st idx jd).2 := by
  intro hmem
  unfold command_branch at hmem ⊢
  by_cases e1 : jd.command = "set_log_level"
  · exfalso
    rw [if_pos e1] at hmem
    cases hlv : jd.level with
    | some lv =>
      rw [hlv] at hmem
      cases hv : env.valid_log_level lv with
      | true =>
        simp only [hv, eq_self_iff_true, if_true] at hmem
        rcases (armTimer_mem_post_iff _ _ _ _).mp hmem with ⟨_, hd, _⟩
        exact absurd hd (by decide)
      | false =>
        simp only [hv, Bool.false_eq_true, if_false] at hmem
        simp at hmem
    | none =>
      rw [hlv] at hmem
      rcases (armTimer_mem_post_iff _ _ _ _).mp hmem with ⟨_, hd, _⟩
      exact absurd hd (by decide)
  · rw [if_neg e1] at hmem ⊢
    by_cases e2 : jd.command = "init_ha_discovery"
    · exfalso
      rw [if_pos e2] at hmem
      rcases (armTimer_mem_post_iff _ _ _ _).mp hmem with ⟨_, hd, _⟩
      exact absurd hd (by decide)
    · rw [if_neg e2] at hmem ⊢
      by_cases e3 : jd.command = "get_status"
      · exfalso
        rw [if_pos e3] at hmem
        rcases (armTimer_mem_post_iff _ _ _ _).mp hmem with ⟨_, hd, _⟩
        exact absurd hd (by decide)
      · rw [if_neg e3] at hmem ⊢
        by_cases e4 : jd.command = "refresh_last_command_status"
        · exfalso
          rw [if_pos e4] at hmem
          cases hside : st.sid with
          | some sv =>
            rw [hside] at hmem
            cases htr : truthy sv with
            | true =>
              simp only [htr, eq_self_iff_true, if_true] at hmem
              exact hrec st _ hmem rfl
            | false =>
              simp only [htr, Bool.false_eq_true, if_false] at hmem
              rcases (armTimer_mem_post_iff _ _ _ _).mp hmem with ⟨hs, _, _⟩
              exact absurd hs (by simp [success_of, truthy])
          | none =>
            rw [hside] at hmem
            rcases (armTimer_mem_post_iff _ _ _ _).mp hmem with ⟨hs, _, _⟩
            exact absurd hs (by simp [success_of, truthy])
        · rw [if_neg e4] at hmem ⊢
          rcases List.mem_append.mp hmem with hx | hx
          · exact absurd hx (armTimer_not_mem_dynamic env jd.command jd.kwargs)
          · rcases (armTimer_mem_post_iff _ _ _ _).mp hx with ⟨hs, _, hg⟩
            refine ⟨e1, e2, e3, e4, hg, hs, ?_⟩
            exact List.mem_append.mpr (Or.inr (pubResponse_mem_post _ _ _ _))

lemma do_command_arm (env : Env) :
    ∀ (fuel : Nat) (st : St) (jd : Request),
      Ev.armTimer ∈ (do_command env fuel st jd).2 →
      jd.command ≠ "set_log_level" ∧ jd.command ≠ "init_ha_discovery" ∧
      jd.command ≠ "get_status" ∧ jd.command ≠ "refresh_last_command_status" ∧
      jd.command ≠ "get_service_status" ∧
      success_of (dynamic_branch env jd.command jd.kwargs).1 = Except.ok true ∧
      Ev.pubResponse (dynamic_branch env jd.command jd.kwargs).1 ∈
        (do_command env fuel st jd).2 := by
  intro fuel
  induction fuel with
  | zero =>
    intro st jd hmem
    exact absurd hmem (by simp [do_command])
  | succ fuel ih =>
    intro st jd hmem
    rcases hg : get_jlr_connection st.conn env.now env.construct with ⟨conn', out⟩
    cases out with
    | raised =>
      rw [do_command_raised env fuel st jd conn' hg] at hmem
      exact absurd hmem (by simp [placeholderEv])
    | ok s =>
      cases conn' with
      | none =>
        rw [do_command_unavail env fuel st jd s hg] at hmem
        exact absurd hmem (by simp [placeholderEv])
      | some conn =>
        cases hres : resolve_vehicle_index env.multi_vehicle conn.vehicle_count
            jd.vehicle_index with
        | none =>
          rw [do_command_resolve_none env fuel st jd conn s hg hres] at hmem
          exact absurd hmem (by simp [placeholderEv])
        | some idx =>
          by_cases hle : conn.vehicle_count ≤ idx
          · rw [do_command_indexerror env fuel st jd conn s idx hg hres hle] at hmem
            exact absurd hmem (by simp [placeholderEv])
          · rw [do_command_cb env fuel st jd conn s idx hg hres hle] at hmem
            have hmem2 : Ev.armTimer ∈ (command_branch env (do_command env fuel)
                { st with conn := some conn } idx jd).2 := by
              rcases List.mem_cons.mp hmem with hx | hx
              · exact absurd hx (by simp [placeholderEv])
              · exact hx
            have h := command_branch_arm env (do_command env fuel)
              { st with conn := some conn } idx jd
              (fun st2 jd2 hm => (ih st2 jd2 hm).2.2.2.2.1) hmem2
            refine ⟨h.1, h.2.1, h.2.2.1, h.2.2.2.1, h.2.2.2.2.1, h.2.2.2.2.2.1, ?_⟩
            rw [do_command_cb env fuel st jd conn s idx hg hres hle]
            exact List.mem_cons_of_mem _ h.2.2.2.2.2.2

/-- C4 (confirmed): after any sequence of dispatched commands and timer
firings from process start, at most one refresh timer is pending; a timer is
armed only for a command that is none of the internal commands and not
`get_service_status`, and only when that command's own remote result — the
value produced by the dynamic dispatch and published as the command
response — passes the non-error success test of line 607; and an arming
dispatch from any state satisfying the timer invariant first kills every
previously pending timer and leaves exactly one pending, so two arming
commands in a row leave exactly one pending timer. -/
theorem refresh_timer_discipline :
    (∀ (env : Env) (steps : List SStep), pendingCount (runSteps env steps).ledger ≤ 1) ∧
    (∀ (env : Env) (fuel : Nat) (st : St) (jd : Request),
      Ev.armTimer ∈ (do_command env fuel st jd).2 →
      jd.command ≠ "set_log_level" ∧ jd.command ≠ "init_ha_discovery" ∧
      jd.command ≠ "get_status" ∧ jd.command ≠ "refresh_last_command_status" ∧
      jd.command ≠ "get_service_status" ∧
      success_of (dynamic_branch env jd.command jd.kwargs).1 = Except.ok true ∧
      Ev.pubResponse (dynamic_branch env jd.command jd.kwargs).1 ∈
        (do_command env fuel st jd).2) ∧
    (∀ (env : Env) (fuel : Nat) (st : St) (jd : Request), TimerInv st.ledger →
      Ev.armTimer ∈ (do_command env fuel st jd).2 →
      pendingCount (do_command env fuel st jd).1.ledger = 1 ∧
      (∀ i, aliveT st.ledger i = true →
        aliveT (do_command env fuel st jd).1.ledger i = false)) := by
  have hstep : ∀ (env : Env) (st : St) (s : SStep), TimerInv st.ledger →
      TimerInv (stepRun env st s).ledger := by
    intro env st s h
    cases s with
    | cmd jd =>
      rcases do_command_ledger_or env 4 st jd with ⟨hL, _⟩ | ⟨hL, _⟩
      · simpa [stepRun, hL] using h
      · have h2 := (armStep_inv st.ledger h).1
        simpa [stepRun, hL] using h2
    | fire i => exact fireTimer_inv st.ledger i h
  refine ⟨?_, do_command_arm, ?_⟩
  · intro env steps
    have hrun : ∀ (l : List SStep) (st : St), TimerInv st.ledger →
        TimerInv ((l.foldl (stepRun env) st)).ledger := by
      intro l
      induction l with
      | nil => intro st h; exact h
      | cons s rest ihl =>
        intro st h
        exact ihl _ (hstep env st s h)
    have hinit : TimerInv initSt.ledger := by
      constructor
      · intro i hi
        simp [initSt, aliveT] at hi
      · intro i hi
        simp [initSt] at hi
    exact timerInv_pendingCount_le_one _ (hrun steps initSt hinit)
  · intro env fuel st jd h hmem
    rcases do_command_ledger_or env fuel st jd with ⟨_, hA⟩ | ⟨hL, _⟩
    · exact absurd hmem hA
    · rw [hL]
      exact ⟨(armStep_inv st.ledger h).2.1, fun i hi => (armStep_inv st.ledger h).2.2 i hi⟩

/-- Witness for the C4 theorem at concrete inputs. -/
theorem refresh_timer_discipline_witness :
    pendingCount (do_command envPin 1 stW reqHonk).1.ledger = 1 ∧
    success_of (dynamic_branch envPin reqHonk.command reqHonk.kwargs).1 = Except.ok true ∧
    pendingCount (runSteps envPin [SStep.cmd reqHonk, SStep.cmd reqHonk]).ledger ≤ 1 := by
  have hinv : TimerInv stW.ledger := by
    constructor
    · intro i hi
      simp [stW, aliveT] at hi
    · intro i hi
      simp [stW] at hi
  have hmem : Ev.armTimer ∈ (do_command envPin 1 stW reqHonk).2 := by
    have htr : (do_command envPin 1 stW reqHonk).2 =
        [placeholderEv,
         Ev.remoteCall "honk_blink" [("a", PyVal.int 1), ("pin", PyVal.str "1234")],
         Ev.pubResponse (PyVal.dict [("status", PyVal.str "Started"),
           ("customerServiceId", PyVal.str "svc1")]),
         Ev.logCompleted, Ev.armTimer] := rfl
    rw [htr]
    simp
  exact ⟨(refresh_timer_discipline.2.2 envPin 1 stW reqHonk hinv hmem).1,
    (refresh_timer_discipline.2.1 envPin 1 stW reqHonk hmem).2.2.2.2.2.1,
    refresh_timer_discipline.1 envPin [SStep.cmd reqHonk, SStep.cmd reqHonk]⟩

end Jlr2mqtt
